import Mathlib

/-!
Verification development for the WebApps launcher engine (src/common.rs).

Strings are modelled as lists of characters (`Str`).  The Rust standard
string operations used by the source (`contains`, `replace`, `split`,
`lines`, `starts_with`) are re-implemented below as structurally recursive
Lean functions so every definition is executable and kernel-reducible.
Filesystem, network and randomness are passed in explicitly (file contents,
probe results, downloaded bytes, random codes) so the code under
verification stays pure.
-/
set_option maxRecDepth 4000
set_option linter.unusedVariables false

abbrev Str := List Char

/-- Substring test, scanning helper: does some suffix of the second argument
start with the pattern?  Mirrors Rust str::contains restricted to literal
patterns (all patterns used by the source are literals). -/
def strContainsAux (pat : Str) : Str → Bool
  | [] => pat.isEmpty
  | c :: rest => List.isPrefixOf pat (c :: rest) || strContainsAux pat rest

/-- Rust str::contains, argument order mirroring line.contains(pat). -/
def strContains (s pat : Str) : Bool := strContainsAux pat s

/-- Helper for strReplace; the fuel argument is bounded by the length of the
scanned string, so structural recursion suffices and the kernel can reduce
concrete instances. -/
def strReplaceAux (pat rep : Str) : Nat → Str → Str
  | _, [] => []
  | 0, s => s
  | fuel + 1, c :: rest =>
    if pat ≠ [] ∧ List.isPrefixOf pat (c :: rest) then
      rep ++ strReplaceAux pat rep fuel (List.drop pat.length (c :: rest))
    else
      c :: strReplaceAux pat rep fuel rest

/-- Rust str::replace: replaces every non-overlapping occurrence of pat,
scanning left to right.  (The source never calls it with an empty pattern;
for an empty pattern this model returns the string unchanged.) -/
def strReplace (s pat rep : Str) : Str := strReplaceAux pat rep s.length s

/-- Split on a single character; mirrors Rust str::split(c), which yields
empty pieces between adjacent separators and at the ends. -/
def splitOnChar (c : Char) : Str → List Str
  | [] => [[]]
  | x :: xs =>
    match splitOnChar c xs with
    | [] => [[]]
    | r :: rs => if x = c then [] :: r :: rs else (x :: r) :: rs

/-- Helper for splitOnStr, fuel-based like strReplaceAux. -/
def splitOnStrAux (sep : Str) : Nat → Str → List Str
  | _, [] => [[]]
  | 0, s => [s]
  | fuel + 1, c :: rest =>
    if sep ≠ [] ∧ List.isPrefixOf sep (c :: rest) then
      [] :: splitOnStrAux sep fuel (List.drop sep.length (c :: rest))
    else
      match splitOnStrAux sep fuel rest with
      | [] => [[c]]
      | r :: rs => (c :: r) :: rs

/-- Rust str::split with a literal multi-character separator (used by
Browser::new for ".local/share/").  For an empty separator this model
returns the whole string in one piece. -/
def splitOnStr (s sep : Str) : List Str := splitOnStrAux sep s.length s

/-- Strip one trailing carriage return, as Rust BufRead::lines does on lines
terminated by a carriage return plus line feed. -/
def stripCR (l : Str) : Str :=
  if l.getLast? = some '\r' then l.dropLast else l

/-- Rust BufRead::lines on in-memory contents: split at line feeds, strip a
trailing carriage return from every piece that was terminated by a line
feed, and drop the final piece when the contents end with a line feed. -/
def rustLines (s : Str) : List Str :=
  (splitOnChar '\n' s).dropLast.map stripCR ++
    (if ((splitOnChar '\n' s).getLastD []).isEmpty then []
     else [(splitOnChar '\n' s).getLastD []])

/-- PathBuf::push / Path::join for the relative components the source uses:
appends with a slash separator (no separator when the base is empty, which
mirrors pushing onto PathBuf::new()). -/
def pathJoin (a b : Str) : Str := if a.isEmpty then b else a ++ '/' :: b

/-- Rust bool Display formatting. -/
def boolStr (b : Bool) : Str := if b then "true".data else "false".data

/-- ASCII lowercase of a string (the url crate lowercases ASCII host
letters). -/
def lowerStr (s : Str) : Str := s.map Char.toLower

/-- Decimal digits of a natural number, fuel-based so it reduces in the
kernel; models Rust integer Display for the random codename suffix. -/
def natDigitsAux : Nat → Nat → Str
  | _, 0 => []
  | 0, _ => []
  | fuel + 1, n + 1 =>
    natDigitsAux fuel ((n + 1) / 10) ++ [Char.ofNat (48 + (n + 1) % 10)]

def natStr (n : Nat) : Str :=
  if n = 0 then ['0'] else natDigitsAux (n + 1) n

/-! ### Model of the external url crate (dependency, not repository code)

The source validates URLs with Url::parse from the url crate and reads the
parsed host.  The crate is an external dependency, so the subset of its
behaviour the source relies on is modelled here: scheme recognition, the
authority/host split (userinfo and port stripped, ASCII-lowercased), the
rule that special schemes require a non-empty host, and rejection of
scheme-less strings.  Percent-encoding, IDNA and per-character host
validation are not modelled. -/
def schemeCharOk (c : Char) : Bool :=
  c.isAlpha || c.isDigit || c = '+' || c = '-' || c = '.'

def specialSchemes : List Str :=
  ["http".data, "https".data, "ws".data, "wss".data, "ftp".data, "file".data]

structure UrlParts where
  scheme : Str
  host : Option Str
deriving DecidableEq, Repr

/-- Model of Url::parse, returning the parsed scheme and host. -/
def urlParse (s : Str) : Option UrlParts :=
  match s.takeWhile (fun c => c ≠ ':') with
  | [] => none
  | c :: cs =>
    let pre := c :: cs
    if pre.length = s.length then none
    else if c.isAlpha && pre.all schemeCharOk then
      let scheme := lowerStr pre
      let rest := s.drop (pre.length + 1)
      if scheme ∈ specialSchemes then
        let rest2 := rest.dropWhile (fun c => c = '/' || c = '\\')
        let auth := rest2.takeWhile
          (fun c => c ≠ '/' && c ≠ '?' && c ≠ '#' && c ≠ '\\')
        let host := lowerStr (((splitOnChar '@' auth).getLastD []).takeWhile
          (fun c => c ≠ ':'))
        if scheme = "file".data then some ⟨scheme, some host⟩
        else if host.isEmpty then none
        else some ⟨scheme, some host⟩
      else if List.isPrefixOf "//".data rest then
        let auth := (rest.drop 2).takeWhile
          (fun c => c ≠ '/' && c ≠ '?' && c ≠ '#')
        let host := lowerStr (((splitOnChar '@' auth).getLastD []).takeWhile
          (fun c => c ≠ ':'))
        some ⟨scheme, some host⟩
      else some ⟨scheme, none⟩
    else none

/-- Source url_valid: Url::parse(url).is_ok(). -/
def url_valid (s : Str) : Bool := (urlParse s).isSome

/-- Model of Path::extension for the paths the source builds: the part of
the final slash-separated component after its last dot, none when there is
no dot or when everything before the last dot is empty (hidden files). -/
def extensionOf (p : Str) : Option Str :=
  let fname := (splitOnChar '/' p).getLastD []
  let parts := splitOnChar '.' fname
  if parts.length ≤ 1 then none
  else if parts.dropLast = [[]] then none
  else some (parts.getLastD [])

/-- Source is_svg: not a URL and the path extension is svg. -/
def is_svg (path : Str) : Bool :=
  !url_valid path && (extensionOf path == some "svg".data)

/-! ### Browser catalog and probe (source lines 495-594) -/
inductive BrowserType where
  | NoBrowser | Firefox | FirefoxFlatpak | Librewolf
  | WaterfoxFlatpak | Chromium | Falkon
deriving DecidableEq, Repr

structure Browser where
  _type : BrowserType
  name : Str
  exec : Str
  test : Str
deriving DecidableEq, Repr

/-- Browser::new.  Resolves a conventional data-home relative path
(".local/share/...") to an absolute path under the home directory, for both
the executable and the presence-probe path.  The source indexes the second
piece of a split on ".local/share/"; when that piece is missing (a path
starting with ".local/share" but not ".local/share/") the source panics,
modelled here with a default empty piece since no catalog entry hits it. -/
def Browser.new (home : Str) (t : BrowserType) (name exec test_path : Str) :
    Browser :=
  let data_home := pathJoin home ".local/share".data
  let exe_path :=
    if List.isPrefixOf ".local/share/".data exec then
      pathJoin data_home ((splitOnStr exec ".local/share/".data).getD 1 [])
    else exec
  let test :=
    if List.isPrefixOf ".local/share".data test_path then
      pathJoin data_home ((splitOnStr test_path ".local/share/".data).getD 1 [])
    else test_path
  ⟨t, name, exe_path, test⟩

/-- Browser::is_installed: every kind except the NoBrowser sentinel. -/
def Browser.is_installed (b : Browser) : Bool :=
  b._type ≠ BrowserType.NoBrowser

/-- Browser::web_browser: linear scan over the probed browser list by
display name.  The probed list is passed in explicitly. -/
def Browser.web_browser (supported : List Browser) (name : Str) :
    Option Browser :=
  supported.find? (fun b => b.name == name)

/-- get_supported_browsers.  The static catalog (the supported_browsers
module, which is not under src) and the filesystem existence probe
(try_exists, which can fail per candidate) are passed in explicitly.
Candidates whose probe returns false or fails are skipped; the NoBrowser
sentinel is inserted at index 0. -/
def get_supported_browsers (home : Str) (catalog : List Browser)
    (tryExists : Str → Except Unit Bool) : List Browser :=
  let found := catalog.foldl (fun bs b =>
    match tryExists b.test with
    | .ok true => bs ++ [b]
    | .ok false => bs
    | .error _ => bs) []
  Browser.new home BrowserType.NoBrowser "Select browser".data [] [] :: found

/-! ### The launcher data model and desktop-entry codec (source lines 77-493) -/
structure WebAppLauncher where
  path : Str
  codename : Str
  web_browser : Browser
  name : Str
  icon : Str
  is_valid : Bool
  exec : Str
  args : List Str
  category : Str
  url : Str
  custom_parameters : Str
  isolate_profile : Bool
  navbar : Bool
  is_incognito : Bool
deriving DecidableEq, Repr

/-- desktop_filepath: the entry file lives under
home/.local/share/applications. -/
def desktop_filepath (home filename : Str) : Str :=
  pathJoin (pathJoin home ".local/share/applications".data) filename

/-- WebAppLauncher::new.  The thread-rng draw from 1000..10000 used when no
codename is supplied is passed in as random_code. -/
def WebAppLauncher.new (home : Str) (random_code : Nat) (name : Str)
    (codename : Option Str) (url icon category : Str) (browser : Browser)
    (custom_parameters : Str) (isolated navbar privatewindow : Bool) :
    WebAppLauncher :=
  let codename := match codename with
    | some c => c
    | none => strReplace name " ".data [] ++ natStr random_code
  let filename := "webapp-".data ++ codename ++ ".desktop".data
  let path := desktop_filepath home filename
  let is_valid := !name.isEmpty && !icon.isEmpty && url_valid url
    && browser.is_installed
  { path, codename, web_browser := browser, name, icon, is_valid,
    exec := browser.exec, args := [], category, url, custom_parameters,
    isolate_profile := isolated, navbar, is_incognito := privatewindow }

def kName : Str := "Name=".data
def kIcon : Str := "Icon=".data
def kExec : Str := "Exec=".data
def kCategories : Str := "Categories=".data
def kBrowser : Str := "X-WebApp-Browser=".data
def kURL : Str := "X-WebApp-URL=".data
def kCustom : Str := "X-WebApp-CustomParameters=".data
def kIsolated : Str := "X-WebApp-Isolated=".data
def kNavbar : Str := "X-WebApp-Navbar=".data
def kPrivate : Str := "X-WebApp-PrivateWindow=".data
def kWMWebApp : Str := "StartupWMClass=WebApp".data
def kWMChromium : Str := "StartupWMClass=Chromium".data
def kWMICE : Str := "StartupWMClass=ICE-SSB".data

/-- The mutable locals of WebAppLauncher::read while scanning lines. -/
structure ReadAcc where
  browser_name : Str := []
  name : Str := []
  icon : Str := []
  exec : Str := []
  category : Str := []
  url : Str := []
  custom_parameters : Str := []
  isolate_profile : Bool := false
  navbar : Bool := false
  is_incognito : Bool := false
  is_webapp : Bool := false
deriving DecidableEq, Repr

/-- One iteration of the line loop of WebAppLauncher::read.  Every test is a
substring containment test and every extraction removes all occurrences of
the key token, exactly as the source does; each test assigns a distinct
local, so the sequential ifs are a simultaneous record update. -/
def processLine (acc : ReadAcc) (line : Str) : ReadAcc where
  is_webapp := acc.is_webapp || strContains line kWMWebApp
    || strContains line kWMChromium || strContains line kWMICE
  name := if strContains line kName then strReplace line kName [] else acc.name
  icon := if strContains line kIcon then strReplace line kIcon [] else acc.icon
  exec := if strContains line kExec then strReplace line kExec [] else acc.exec
  category :=
    if strContains line kCategories then
      strReplace (strReplace (strReplace line kCategories []) "GTK;".data [])
        ";".data []
    else acc.category
  browser_name := if strContains line kBrowser then strReplace line kBrowser []
    else acc.browser_name
  url := if strContains line kURL then strReplace line kURL [] else acc.url
  custom_parameters := if strContains line kCustom
    then strReplace line kCustom [] else acc.custom_parameters
  isolate_profile := if strContains line kIsolated
    then strReplace line kIsolated [] == "true".data else acc.isolate_profile
  navbar := if strContains line kNavbar
    then strReplace line kNavbar [] == "true".data else acc.navbar
  is_incognito := if strContains line kPrivate
    then strReplace line kPrivate [] == "true".data else acc.is_incognito

/-- WebAppLauncher::read.  The entry-file contents and the probed browser
list are passed in explicitly; none models the failed read (the source
returns an error when no installed browser matches the stored name). -/
def WebAppLauncher.read (supported : List Browser) (contents : Str)
    (path codename : Str) : Option WebAppLauncher :=
  let st := (rustLines contents).foldl processLine {}
  let is_valid := st.is_webapp && !st.name.isEmpty && !st.icon.isEmpty
  match Browser.web_browser supported st.browser_name with
  | some web_browser =>
    some
      { path := path, codename := codename, web_browser := web_browser,
        name := st.name, icon := st.icon,
        is_valid := is_valid, exec := st.exec,
        args := ((splitOnChar ' ' st.exec).drop 1).filter (fun a => !a.isEmpty),
        category := st.category, url := st.url,
        custom_parameters := st.custom_parameters,
        isolate_profile := st.isolate_profile, navbar := st.navbar,
        is_incognito := st.is_incognito }
  | none => none

/-- The per-fork profile directory of exec_firefox: the root depends only on
the fork string passed by exec_string (both native and flatpak Firefox pass
"firefox"). -/
def firefox_profile_dir (home fork : Str) : Str :=
  if fork = "firefox".data then
    pathJoin home ".var/app/org.mozilla.firefox/data/ice/firefox".data
  else if fork = "librewolf".data then
    pathJoin home ".var/app/io.gitlab.librewolf-community/data/ice/librewolf".data
  else if fork = "waterfox".data then
    pathJoin home ".var/app/net.waterfox.waterfox/data/ice/waterfox".data
  else home

/-- The bytes create_user_chrome_css writes: an empty file when the navbar
is requested, the bundled stylesheet otherwise.  The bundled payload is a
build-time constant of the source, passed in here. -/
def create_user_chrome_css (user_chrome_css : List Nat) (create_navbar : Bool) :
    List Nat :=
  if create_navbar then [] else user_chrome_css

/-- The files written by exec_firefox as path-bytes pairs: user.js always
gets the bundled preference payload, chrome/userChrome.css gets the
create_user_chrome_css bytes chosen by the navbar flag. -/
def WebAppLauncher.exec_firefox_writes (l : WebAppLauncher)
    (home fork : Str) (user_js user_chrome_css : List Nat) :
    List (Str × List Nat) :=
  let profile_path := pathJoin (firefox_profile_dir home fork) l.codename
  [ (pathJoin profile_path "user.js".data, user_js),
    (pathJoin (pathJoin profile_path "chrome".data) "userChrome.css".data,
      create_user_chrome_css user_chrome_css l.navbar) ]

/-- The string returned by exec_firefox. -/
def WebAppLauncher.exec_firefox (l : WebAppLauncher) (home fork : Str) : Str :=
  let profile_path := pathJoin (firefox_profile_dir home fork) l.codename
  let base := l.exec ++ " --class WebApp-".data ++ l.codename
    ++ " --name WebApp-".data ++ l.codename
    ++ " --profile ".data ++ profile_path ++ " --no-remote ".data
  let s1 := if l.is_incognito then base ++ "--private-window ".data else base
  let s2 := if !l.custom_parameters.isEmpty then s1 ++ l.custom_parameters ++ " ".data
    else s1
  s2 ++ l.url

/-- The isolated profile directory used by exec_chromium and exec_falkon:
home/.local/share/ice/profiles/codename. -/
def iceProfilePath (home codename : Str) : Str :=
  pathJoin (pathJoin (pathJoin (pathJoin home ".local/share".data) "ice".data)
    "profiles".data) codename

/-- exec_chromium. -/
def WebAppLauncher.exec_chromium (l : WebAppLauncher) (home : Str) : Str :=
  let base := l.exec ++ " --app=".data ++ l.url ++ " --class=WebApp-".data
    ++ l.codename ++ " --name=WebApp-".data ++ l.codename ++ " ".data
  let s1 := if l.isolate_profile then
      base ++ "--user-data-dir=".data ++ iceProfilePath home l.codename
        ++ " ".data
    else base
  let s2 := if l.is_incognito then
      if List.isPrefixOf "Microsoft Edge".data l.web_browser.name then
        s1 ++ "--inprivate ".data
      else s1 ++ "--incognito ".data
    else s1
  if !l.custom_parameters.isEmpty then s2 ++ l.custom_parameters ++ " ".data
  else s2

/-- exec_falkon.  The whole portable/wmclass/profile prefix is emitted only
when the profile is isolated. -/
def WebAppLauncher.exec_falkon (l : WebAppLauncher) (home : Str) : Str :=
  let s0 := if l.isolate_profile then
      l.exec ++ " --portable --wmclass WebApp-".data ++ l.codename
        ++ " --profile ".data ++ iceProfilePath home l.codename ++ " ".data
    else []
  let s1 := if l.is_incognito then s0 ++ "--private-browsing ".data else s0
  let s2 := if !l.custom_parameters.isEmpty then s1 ++ l.custom_parameters ++ " ".data
    else s1
  s2 ++ "--no-remote --current-tab ".data ++ l.url

/-- exec_string: dispatch on the browser kind.  Both Firefox and
FirefoxFlatpak pass the fork string "firefox". -/
def WebAppLauncher.exec_string (l : WebAppLauncher) (home : Str) : Str :=
  match l.web_browser._type with
  | BrowserType.Firefox => l.exec_firefox home "firefox".data
  | BrowserType.FirefoxFlatpak => l.exec_firefox home "firefox".data
  | BrowserType.Librewolf => l.exec_firefox home "librewolf".data
  | BrowserType.WaterfoxFlatpak => l.exec_firefox home "waterfox".data
  | BrowserType.Chromium => l.exec_chromium home
  | BrowserType.Falkon => l.exec_falkon home
  | BrowserType.NoBrowser => []

/-- The ordered lines WebAppLauncher::create writes to the entry file. -/
def WebAppLauncher.create_lines (l : WebAppLauncher) (home : Str) : List Str :=
  [ "[Desktop Entry]".data,
    "Version=1.0".data,
    "Name=".data ++ l.name,
    "Comment=Web App".data,
    "Exec=".data ++ l.exec_string home,
    "Terminal=false".data,
    "Type=Application".data,
    "Icon=".data ++ l.icon,
    "Categories=GTK;".data ++ l.category ++ ";".data,
    "MimeType=text/html;text/xml;application/xhtml_xml;".data,
    "StartupWMClass=WebApp-".data ++ l.codename,
    "StartupNotify=true".data,
    "X-MultipleArgs=false".data,
    "X-WebApp-Browser=".data ++ l.web_browser.name,
    "X-WebApp-URL=".data ++ l.url,
    "X-WebApp-Navbar=".data ++ boolStr l.navbar,
    "X-WebApp-PrivateWindow=".data ++ boolStr l.is_incognito,
    "X-WebApp-Isolated=".data ++ boolStr l.isolate_profile,
    "X-WebApp-CustomParameters=".data ++ l.custom_parameters ]

/-- writeln-concatenation of the entry lines: each line followed by a line
feed. -/
def joinLines (ls : List Str) : Str :=
  ls.foldr (fun l acc => l ++ '\n' :: acc) []

/-- WebAppLauncher::create: the full contents written to the entry file. -/
def WebAppLauncher.create (l : WebAppLauncher) (home : Str) : Str :=
  joinLines (l.create_lines home)

/-- The profile directory WebAppLauncher::delete removes: a per-family root
for the three flatpak Firefox forks, the bare home directory for every
other kind, joined with the codename. -/
def WebAppLauncher.delete_profile_path (l : WebAppLauncher) (home : Str) :
    Str :=
  let profile_dir := match l.web_browser._type with
    | BrowserType.FirefoxFlatpak =>
      pathJoin home ".var/app/org.mozilla.firefox/data/ice/firefox".data
    | BrowserType.Librewolf =>
      pathJoin home ".var/app/io.gitlab.librewolf-community/data/ice/librewolf".data
    | BrowserType.WaterfoxFlatpak =>
      pathJoin home ".var/app/net.waterfox.waterfox/data/ice/waterfox".data
    | _ => home
  pathJoin profile_dir l.codename

/-- WebAppLauncher::delete.  Filesystem outcomes are passed in: whether the
entry file exists, whether removing it succeeds, and whether removing the
profile directory succeeds.  A missing entry file is only logged; a failing
remove_file is propagated (the question-mark operator returns early, so the
profile removal is not attempted, hence the Option on the attempted path);
the profile-directory removal result is ignored. -/
def WebAppLauncher.delete (l : WebAppLauncher) (home : Str)
    (file_exists remove_file_ok remove_dir_ok : Bool) :
    Except Unit Unit × Option Str :=
  if file_exists && !remove_file_ok then (Except.error (), none)
  else
    let attempted := l.delete_profile_path home
    let _ := remove_dir_ok
    (Except.ok (), some attempted)

/-- get_icon_name_from_url.  The source indexes parts[parts.len() - 2] on
the dot-split host; the subtraction is a wrapping usize subtraction, so a
host with fewer than two labels produces a huge index and the indexing
panics.  The panic is modelled by the none result; the parse-error and
no-host branches return the empty string. -/
def get_icon_name_from_url (url : Str) : Option Str :=
  match urlParse url with
  | none => some []
  | some u =>
    match u.host with
    | none => some []
    | some host =>
      let parts := splitOnChar '.' host
      parts[(parts.length + (2 ^ 64 - 2)) % 2 ^ 64]?

/-- One directory-walk entry seen by find_icon: the entry path and its file
name. -/
structure WalkEntry where
  path : Str
  fname : Str
deriving DecidableEq, Repr

/-- find_icon.  The directory walk, the file reads and the SVG parse are
passed in explicitly: entries lists the walked files, readFile gives the
text contents when the read succeeds, svgParse gives the parsed intrinsic
size when the contents parse as SVG (the f32 sizes are modelled as
rationals; every size the claims mention is exactly representable).  A file
is collected when its name contains the icon name, it reads and parses
successfully, both dimensions are at least 64, and it is not yet
collected. -/
def find_icon (entries : List WalkEntry) (readFile : Str → Option Str)
    (svgParse : Str → Option (ℚ × ℚ)) (icon_name : Str) : List Str :=
  entries.foldl (fun icons e =>
    if strContains e.fname icon_name then
      match readFile e.path with
      | some buffer =>
        match svgParse buffer with
        | some (w, h) =>
          if 64 ≤ w && 64 ≤ h then
            if icons.contains e.path then icons else icons ++ [e.path]
          else icons
        | none => icons
      | none => icons
    else icons) []

inductive IconKind where
  | Svg | Raster
deriving DecidableEq, Repr

/-- The icon value produced by image_handle: which handle kind was built
and the path it was built from (the decoded bytes themselves stay
abstract). -/
structure IconRes where
  kind : IconKind
  path : Str
deriving DecidableEq, Repr

/-- image_handle.  Byte acquisition (network fetch for URL paths, file read
otherwise) and raster decoding are passed in explicitly; decode gives the
decoded width and height when the bytes decode as an image.  An SVG path is
wrapped unconditionally; raster data is accepted only when both dimensions
are at least 96. -/
def image_handle (fetch : Str → List Nat) (readBytes : Str → Option (List Nat))
    (decode : List Nat → Option (Nat × Nat)) (path : Str) : Option IconRes :=
  let data := if url_valid path then fetch path
    else match readBytes path with
      | some buffer => buffer
      | none => []
  if is_svg path then some ⟨IconKind.Svg, path⟩
  else
    match decode data with
    | some (w, h) =>
      if 96 ≤ w && 96 ≤ h then some ⟨IconKind.Raster, path⟩ else none
    | none => none

/-- The bytes image_handle decodes for a given path (named so theorems can
constrain the decode of exactly these bytes). -/
def image_handle_data (fetch : Str → List Nat)
    (readBytes : Str → Option (List Nat)) (path : Str) : List Nat :=
  if url_valid path then fetch path
  else match readBytes path with
    | some buffer => buffer
    | none => []

/-- Values that are safe to embed in a single desktop-entry line: free of
line feeds and carriage returns. -/
def lineSafe (v : Str) : Prop := '\n' ∉ v ∧ '\r' ∉ v

instance (v : Str) : Decidable (lineSafe v) :=
  inferInstanceAs (Decidable (_ ∧ _))

/-! ### Concrete instances for the round-trip claim -/
def c1Home : Str := "/h".data

def c1Browser : Browser :=
  ⟨BrowserType.Chromium, "Chromium".data, "chr".data, "t".data⟩

/-- A launcher whose custom parameters carry the url key token: the loose
substring codec mis-parses the url on read-back. -/
def c1Launcher : WebAppLauncher :=
  { path := [], codename := "c".data, web_browser := c1Browser,
    name := "a".data, icon := "i".data, is_valid := true, exec := "chr".data,
    args := [], category := [], url := "https://e.com".data,
    custom_parameters := "X-WebApp-URL=x".data, isolate_profile := false,
    navbar := false, is_incognito := false }

def c1Supported : List Browser :=
  get_supported_browsers c1Home [c1Browser] (fun _ => Except.ok true)

/-- A launcher with benign values, satisfying every boundary hypothesis of
the amended round-trip theorem. -/
def c1CleanLauncher : WebAppLauncher :=
  { path := [], codename := "c".data, web_browser := c1Browser,
    name := "a".data, icon := "i".data, is_valid := true, exec := "chr".data,
    args := [], category := [], url := "https://e.com".data,
    custom_parameters := [], isolate_profile := false,
    navbar := false, is_incognito := false }

def c2Contents : Str :=
  "StartupWMClass=WebApp\nName=a\nIcon=b\nX-WebApp-Browser=Select browser\n".data

def c2Supported : List Browser :=
  get_supported_browsers [] [] (fun _ => Except.ok false)

def c2NewBrowser : Browser :=
  ⟨BrowserType.Chromium, "B".data, "e".data, "t".data⟩

def c2ReadResult : WebAppLauncher :=
  { path := [], codename := "c".data,
    web_browser := ⟨BrowserType.NoBrowser, "Select browser".data, [], []⟩,
    name := "a".data, icon := "b".data, is_valid := true, exec := [],
    args := [], category := [], url := [], custom_parameters := [],
    isolate_profile := false, navbar := false, is_incognito := false }

/-- Values that do not themselves carry one of the three chromium flag
texts. -/
def flagFree (v : Str) : Prop :=
  strContains v "--user-data-dir".data = false
  ∧ strContains v "--incognito".data = false
  ∧ strContains v "--inprivate".data = false

instance (v : Str) : Decidable (flagFree v) :=
  inferInstanceAs (Decidable (_ ∧ _ ∧ _))

def c3Browser : Browser :=
  ⟨BrowserType.Chromium, "Chromium".data, "chr".data, "t".data⟩

/-- A chromium launcher with isolation and incognito off whose custom
parameters carry the --incognito text. -/
def c3Launcher : WebAppLauncher :=
  { path := [], codename := "c".data, web_browser := c3Browser,
    name := "a".data, icon := "i".data, is_valid := true, exec := "chr".data,
    args := [], category := [], url := "https://e.com".data,
    custom_parameters := "--incognito".data, isolate_profile := false,
    navbar := false, is_incognito := false }

/-- A chromium launcher with flag-free fields. -/
def c3Clean : WebAppLauncher :=
  { path := [], codename := "c".data, web_browser := c3Browser,
    name := "a".data, icon := "i".data, is_valid := true, exec := "chr".data,
    args := [], category := [], url := "https://e.com".data,
    custom_parameters := [], isolate_profile := false,
    navbar := false, is_incognito := false }

def c4NativeBrowser : Browser :=
  ⟨BrowserType.Firefox, "Firefox".data, "ff".data, "t".data⟩

def c4FlatpakBrowser : Browser :=
  ⟨BrowserType.FirefoxFlatpak, "Firefox flatpak".data, "ffp".data, "t".data⟩

def c4Native : WebAppLauncher :=
  { path := [], codename := "c".data, web_browser := c4NativeBrowser,
    name := "a".data, icon := "i".data, is_valid := true, exec := "ff".data,
    args := [], category := [], url := "https://e.com".data,
    custom_parameters := [], isolate_profile := true,
    navbar := false, is_incognito := false }

def c4Flatpak : WebAppLauncher :=
  { c4Native with web_browser := c4FlatpakBrowser, exec := "ff".data }

def c4Librewolf : WebAppLauncher :=
  { c4Native with
    web_browser := ⟨BrowserType.Librewolf, "Librewolf".data, "lw".data,
      "t".data⟩,
    exec := "ff".data }

def c5Launcher : WebAppLauncher :=
  { path := [], codename := "c".data,
    web_browser := ⟨BrowserType.Firefox, "Firefox".data, "ff".data,
      "t".data⟩,
    name := "a".data, icon := "i".data, is_valid := true, exec := "ff".data,
    args := [], category := [], url := "https://e.com".data,
    custom_parameters := [], isolate_profile := false,
    navbar := true, is_incognito := false }

def c6Native : WebAppLauncher :=
  { path := "p".data, codename := "c".data,
    web_browser := ⟨BrowserType.Firefox, "Firefox".data, "ff".data,
      "t".data⟩,
    name := "a".data, icon := "i".data, is_valid := true, exec := "ff".data,
    args := [], category := [], url := "https://e.com".data,
    custom_parameters := [], isolate_profile := true,
    navbar := false, is_incognito := false }

def c6Flatpak : WebAppLauncher :=
  { c6Native with
    web_browser := ⟨BrowserType.FirefoxFlatpak, "Firefox flatpak".data,
      "ffp".data, "t".data⟩ }

def c8Fetch : Str → List Nat := fun _ => []

def c8Read : Str → Option (List Nat) := fun _ => some [7]

def c8Decode95 : List Nat → Option (Nat × Nat) := fun _ => some (95, 95)

def c8Decode96 : List Nat → Option (Nat × Nat) := fun _ => some (96, 96)

def c8Entries : List WalkEntry := [⟨"/i/a.svg".data, "a.svg".data⟩]

def c8ReadFile : Str → Option Str := fun _ => some "s".data

def c8Svg64 : Str → Option (ℚ × ℚ) := fun _ => some (64, 64)

def c8Svg63 : Str → Option (ℚ × ℚ) := fun _ => some (63, 64)

def c10Launcher : WebAppLauncher :=
  { path := "p".data, codename := "c".data,
    web_browser := ⟨BrowserType.Chromium, "Chromium".data, "chr".data,
      "t".data⟩,
    name := "a".data, icon := "i".data, is_valid := true,
    exec := "chr".data, args := [], category := [],
    url := "https://e.com".data, custom_parameters := [],
    isolate_profile := false, navbar := false, is_incognito := false }

example : natStr 1037 = "1037".data := by decide
example : strReplace "a Name=b Name=c".data "Name=".data [] = "a b c".data := by
  decide
example : strContains "xStartupWMClass=WebAppy".data "StartupWMClass=WebApp".data
    = true := by decide
example : rustLines "ab\r\ncd\nef".data = ["ab".data, "cd".data, "ef".data] := by
  decide
example : splitOnStr "x.local/share/a.local/share/b".data ".local/share/".data
    = ["x".data, "a".data, "b".data] := by decide

example : url_valid "https://example.com".data = true := by decide
example : url_valid "".data = false := by decide
example : url_valid "/icons/app.png".data = false := by decide
example : url_valid "foo.svg".data = false := by decide
example : (urlParse "https://localhost".data).map UrlParts.host
    = some (some "localhost".data) := by decide
example : (urlParse "https://www.example.com".data).map UrlParts.host
    = some (some "www.example.com".data) := by decide
example : is_svg "icons/app.svg".data = true := by decide
example : is_svg "icons/app.png".data = false := by decide

/-! ### Lemmas about the string model -/
theorem strContainsAux_spec (pat : Str) : ∀ s : Str,
    strContainsAux pat s = true ↔ pat <:+: s := by
  intro s
  induction s with
  | nil => simp [strContainsAux, List.isEmpty_iff]
  | cons c rest ih =>
    simp [strContainsAux, ih, List.infix_cons_iff]

theorem strContains_iff (s pat : Str) : strContains s pat = true ↔ pat <:+: s :=
  strContainsAux_spec pat s

theorem strContains_eq_false_iff (s pat : Str) :
    strContains s pat = false ↔ ¬ pat <:+: s := by
  rw [← strContains_iff]
  cases strContains s pat <;> simp

/-- An occurrence of pat inside an append is inside the left part, inside
the right part, or spans the boundary: a nonempty proper initial piece of
pat is a suffix of the left part and the rest is a head part of the right
part. -/
theorem infix_append_cases {pat a b : Str} (h : pat <:+: a ++ b) :
    pat <:+: a ∨ pat <:+: b ∨
      ∃ i, 0 < i ∧ i < pat.length ∧ pat.take i <:+ a ∧ pat.drop i <+: b := by
  induction a with
  | nil => exact Or.inr (Or.inl h)
  | cons c a' ih =>
    rw [List.cons_append] at h
    rcases List.infix_cons_iff.mp h with hpre | hrest
    · by_cases hlen : pat.length ≤ (c :: a').length
      · left
        exact (List.prefix_of_prefix_length_le hpre
          (List.prefix_append (c :: a') b) hlen).isInfix
      · right; right
        push_neg at hlen
        have hca : (c :: a') <+: pat :=
          List.prefix_of_prefix_length_le (List.prefix_append (c :: a') b)
            hpre (Nat.le_of_lt hlen)
        obtain ⟨r, hr⟩ := hca
        refine ⟨(c :: a').length, by simp, hlen, ?_, ?_⟩
        · rw [← hr, List.take_left]
        · obtain ⟨t, ht⟩ := hpre
          rw [← hr, List.drop_left]
          rw [← hr, List.append_assoc] at ht
          exact ⟨t, List.append_cancel_left ht⟩
    · rcases ih hrest with h1 | h2 | ⟨i, hi0, hilen, hsuf, hpre2⟩
      · exact Or.inl (List.infix_cons h1)
      · exact Or.inr (Or.inl h2)
      · exact Or.inr (Or.inr
          ⟨i, hi0, hilen, hsuf.trans (List.suffix_cons c a'), hpre2⟩)

/-- No occurrence of pat in an append when neither part contains it and no
nonempty proper initial piece of pat ends the left part (the latter is
decidable when pat and the left part are concrete). -/
theorem strContains_append_false (pat a b : Str)
    (ha : strContains a pat = false) (hb : strContains b pat = false)
    (hspan : ∀ i < pat.length, 0 < i →
      List.isSuffixOf (pat.take i) a = false) :
    strContains (a ++ b) pat = false := by
  rw [strContains_eq_false_iff] at ha hb ⊢
  intro h
  rcases infix_append_cases h with h1 | h2 | ⟨i, hi0, hilen, hsuf, -⟩
  · exact ha h1
  · exact hb h2
  · have hfalse := hspan i hilen hi0
    rw [Bool.eq_false_iff] at hfalse
    exact hfalse (List.isSuffixOf_iff_suffix.mpr hsuf)

/-- No occurrence of pat in an append when neither part contains it and the
right part starts with a character that does not occur in pat (so no
occurrence can span the boundary). -/
theorem strContains_append_false_hd (pat a b : Str) (c : Char)
    (ha : strContains a pat = false) (hb : strContains b pat = false)
    (hhd : b.head? = some c) (hc : c ∉ pat) :
    strContains (a ++ b) pat = false := by
  rw [strContains_eq_false_iff] at ha hb ⊢
  intro h
  rcases infix_append_cases h with h1 | h2 | ⟨i, hi0, hilen, -, hpre⟩
  · exact ha h1
  · exact hb h2
  · obtain ⟨d, r, hd⟩ : ∃ d r, pat.drop i = d :: r := by
      cases hdrop : pat.drop i with
      | nil =>
        have := congrArg List.length hdrop
        simp [List.length_drop] at this
        omega
      | cons d r => exact ⟨d, r, rfl⟩
    have hdb : b.head? = some d := by
      obtain ⟨t, ht⟩ := hpre
      rw [← ht, hd, List.cons_append, List.head?_cons]
    have hdc : d = c := by
      rw [hdb] at hhd
      exact Option.some.inj hhd
    have hdmem : d ∈ pat := by
      have : d ∈ pat.drop i := by
        rw [hd]
        exact List.mem_cons_self d r
      exact List.mem_of_mem_drop this
    exact hc (hdc ▸ hdmem)

/-- A string that is not a head part of the left part and whose characters
exclude the first character of the right part cannot be a head part of the
append. -/
theorem not_prefix_append (t a b : Str) (c : Char)
    (hta : ¬ t <+: a) (hhd : b.head? = some c) (hc : c ∉ t) :
    ¬ t <+: a ++ b := by
  intro h
  by_cases hlen : t.length ≤ a.length
  · exact hta (List.prefix_of_prefix_length_le h (List.prefix_append a b) hlen)
  · push_neg at hlen
    have hat : a <+: t :=
      List.prefix_of_prefix_length_le (List.prefix_append a b) h
        (Nat.le_of_lt hlen)
    obtain ⟨r, hr⟩ := hat
    have hrb : r <+: b := by
      obtain ⟨t2, ht2⟩ := h
      rw [← hr, List.append_assoc] at ht2
      exact ⟨t2, List.append_cancel_left ht2⟩
    obtain ⟨d, r2, hd⟩ : ∃ d r2, r = d :: r2 := by
      cases hrr : r with
      | nil =>
        exfalso
        rw [hrr, List.append_nil] at hr
        rw [hr] at hlen
        exact Nat.lt_irrefl _ hlen
      | cons d r2 => exact ⟨d, r2, rfl⟩
    have hdb : b.head? = some d := by
      obtain ⟨t3, ht3⟩ := hrb
      rw [← ht3, hd, List.cons_append, List.head?_cons]
    have hdc : d = c := Option.some.inj (hdb ▸ hhd)
    have hdmem : d ∈ t := by
      rw [← hr, hd]
      exact List.mem_append_right a (List.mem_cons_self d r2)
    exact hc (hdc ▸ hdmem)

/-- Replacing a pattern that does not occur leaves a string unchanged, for
any fuel. -/
theorem strReplaceAux_no_occ (pat rep : Str) :
    ∀ fuel s, strContains s pat = false → strReplaceAux pat rep fuel s = s := by
  intro fuel
  induction fuel with
  | zero =>
    intro s h
    cases s <;> rfl
  | succ f ih =>
    intro s h
    cases s with
    | nil => rfl
    | cons c rest =>
      have hparts : List.isPrefixOf pat (c :: rest) = false
          ∧ strContainsAux pat rest = false := by
        have h2 : (List.isPrefixOf pat (c :: rest)
            || strContainsAux pat rest) = false := h
        exact ⟨(Bool.or_eq_false_iff.mp h2).1, (Bool.or_eq_false_iff.mp h2).2⟩
      simp only [strReplaceAux]
      rw [if_neg]
      · rw [ih rest hparts.2]
      · intro hcon
        rw [hparts.1] at hcon
        exact Bool.false_ne_true hcon.2

/-- Stripping a leading key from a key-value line: replacing the key in
key ++ v gives v when v itself does not contain the key. -/
theorem strReplace_key_head_eq (k : Char) (ks v : Str)
    (hv : strContains v (k :: ks) = false) :
    strReplace ((k :: ks) ++ v) (k :: ks) [] = v := by
  show strReplaceAux (k :: ks) [] ((k :: ks ++ v).length) (k :: ks ++ v) = v
  rw [List.cons_append, List.length_cons]
  simp only [strReplaceAux]
  rw [if_pos]
  · rw [List.length_cons, List.drop_succ_cons, List.drop_left]
    rw [strReplaceAux_no_occ (k :: ks) [] ((ks ++ v).length) v hv]
    rfl
  · constructor
    · exact List.cons_ne_nil k ks
    · rw [ List.isPrefixOf_iff_prefix]
      exact ⟨v, by rw [List.cons_append]⟩

/-- A key-value line always contains its own key. -/
theorem strContains_key_self (key v : Str) :
    strContains (key ++ v) key = true := by
  rw [strContains_iff]
  exact (List.prefix_append key v).isInfix

/-- Containment is preserved by prepending. -/
theorem strContains_append_right (pat a b : Str)
    (h : strContains b pat = true) : strContains (a ++ b) pat = true := by
  rw [strContains_iff] at h ⊢
  exact h.trans (List.suffix_append a b).isInfix

/-- Containment is preserved by appending. -/
theorem strContains_append_left (pat a b : Str)
    (h : strContains a pat = true) : strContains (a ++ b) pat = true := by
  rw [strContains_iff] at h ⊢
  exact h.trans (List.prefix_append a b).isInfix

theorem ite_of_false {α : Sort _} (b : Bool) (x y : α) (h : b = false) :
    (if b then x else y) = y := by
  subst h
  rfl

theorem ite_of_true {α : Sort _} (b : Bool) (x y : α) (h : b = true) :
    (if b then x else y) = x := by
  subst h
  rfl

theorem splitOnChar_ne_nil (c : Char) (s : Str) : splitOnChar c s ≠ [] := by
  cases s with
  | nil => simp [splitOnChar]
  | cons x xs =>
    simp only [splitOnChar]
    cases splitOnChar c xs with
    | nil => simp
    | cons r rs =>
      by_cases hx : x = c <;> simp [hx]

/-- Splitting at a line feed that follows a line-feed-free piece. -/
theorem splitOnChar_append_cons (l rest : Str) (hl : '\n' ∉ l) :
    splitOnChar '\n' (l ++ '\n' :: rest) = l :: splitOnChar '\n' rest := by
  induction l with
  | nil =>
    rw [List.nil_append]
    simp only [splitOnChar]
    cases hsp : splitOnChar '\n' rest with
    | nil => exact absurd hsp (splitOnChar_ne_nil _ _)
    | cons r rs => simp
  | cons c cs ih =>
    have hc : c ≠ '\n' := fun hcn => hl (hcn ▸ List.mem_cons_self c cs)
    have hcs : '\n' ∉ cs := fun hmem => hl (List.mem_cons_of_mem c hmem)
    rw [List.cons_append]
    simp only [splitOnChar]
    rw [ih hcs]
    simp [hc]

theorem stripCR_eq_self (l : Str) (h : '\r' ∉ l) : stripCR l = l := by
  unfold stripCR
  rw [if_neg]
  intro hlast
  exact h (List.mem_of_getLast?_eq_some hlast)

/-- Reading back the lines of a writeln-joined list of line-feed-free and
carriage-return-free lines gives the list back. -/
theorem rustLines_joinLines (ls : List Str)
    (h : ∀ l ∈ ls, '\n' ∉ l ∧ '\r' ∉ l) :
    rustLines (joinLines ls) = ls := by
  induction ls with
  | nil => rfl
  | cons l ls ih =>
    have hl := h l (List.mem_cons_self l ls)
    have hls : ∀ x ∈ ls, '\n' ∉ x ∧ '\r' ∉ x :=
      fun x hx => h x (List.mem_cons_of_mem l hx)
    have hne := splitOnChar_ne_nil '\n' (joinLines ls)
    have hstep : splitOnChar '\n' (joinLines (l :: ls))
        = l :: splitOnChar '\n' (joinLines ls) := by
      have hj : joinLines (l :: ls) = l ++ '\n' :: joinLines ls := rfl
      rw [hj, splitOnChar_append_cons _ _ hl.1]
    have hgl : (l :: splitOnChar '\n' (joinLines ls)).getLastD ([] : Str)
        = (splitOnChar '\n' (joinLines ls)).getLastD [] := by
      rw [List.getLastD_cons]
      cases hP : splitOnChar '\n' (joinLines ls) with
      | nil => exact absurd hP hne
      | cons p ps =>
        rw [List.getLastD_cons, List.getLastD_cons]
    unfold rustLines at ih ⊢
    rw [hstep, List.dropLast_cons_of_ne_nil hne, List.map_cons,
      stripCR_eq_self l hl.2, hgl, List.cons_append, ih hls]

/-- strReplace with the full key stated through a disequality hypothesis so
it rewrites against literal keys. -/
theorem strReplace_key_head (key v : Str) (hkey : key ≠ [])
    (hv : strContains v key = false) : strReplace (key ++ v) key [] = v := by
  obtain ⟨k, ks, hk⟩ : ∃ k ks, key = k :: ks := by
    cases key with
    | nil => exact absurd rfl hkey
    | cons k ks => exact ⟨k, ks, rfl⟩
  subst hk
  exact strReplace_key_head_eq k ks v hv

/-- Containment over a key plus a formatted boolean reduces to the two
concrete instances. -/
theorem strContains_boolStr_append (key : Str) (x : Bool) (pat : Str)
    (h1 : strContains (key ++ "true".data) pat = false)
    (h2 : strContains (key ++ "false".data) pat = false) :
    strContains (key ++ boolStr x) pat = false := by
  cases x
  · exact h2
  · exact h1

/-- Stripping a key from a key-boolStr line and comparing to "true" recovers
the boolean. -/
theorem strReplace_key_boolStr (key : Str) (x : Bool) (hkey : key ≠ [])
    (ht : strContains "true".data key = false)
    (hf : strContains "false".data key = false)
    (hne : ("false".data == "true".data) = false) :
    (strReplace (key ++ boolStr x) key [] == "true".data) = x := by
  cases x
  · rw [show boolStr false = "false".data from rfl,
      strReplace_key_head key "false".data hkey hf]
    exact hne
  · rw [show boolStr true = "true".data from rfl,
      strReplace_key_head key "true".data hkey ht]
    simp

theorem lineSafe.append {p v : Str} (hp : lineSafe p) (hv : lineSafe v) :
    lineSafe (p ++ v) := by
  constructor
  · intro h
    rcases List.mem_append.mp h with h1 | h2
    · exact hp.1 h1
    · exact hv.1 h2
  · intro h
    rcases List.mem_append.mp h with h1 | h2
    · exact hp.2 h1
    · exact hv.2 h2

theorem lineSafe_boolStr (x : Bool) : lineSafe (boolStr x) := by
  cases x <;> exact (by decide)

/-! Projections of the read-loop fold to per-field scalar folds. -/
theorem foldl_processLine_url (ls : List Str) : ∀ st : ReadAcc,
    (ls.foldl processLine st).url
      = ls.foldl (fun u l => if strContains l kURL then strReplace l kURL []
          else u) st.url := by
  induction ls with
  | nil => intro st; rfl
  | cons l ls ih =>
    intro st
    rw [List.foldl_cons, List.foldl_cons, ih]
    rfl

theorem foldl_processLine_browser_name (ls : List Str) : ∀ st : ReadAcc,
    (ls.foldl processLine st).browser_name
      = ls.foldl (fun u l => if strContains l kBrowser
          then strReplace l kBrowser [] else u) st.browser_name := by
  induction ls with
  | nil => intro st; rfl
  | cons l ls ih =>
    intro st
    rw [List.foldl_cons, List.foldl_cons, ih]
    rfl

theorem foldl_processLine_custom (ls : List Str) : ∀ st : ReadAcc,
    (ls.foldl processLine st).custom_parameters
      = ls.foldl (fun u l => if strContains l kCustom
          then strReplace l kCustom [] else u) st.custom_parameters := by
  induction ls with
  | nil => intro st; rfl
  | cons l ls ih =>
    intro st
    rw [List.foldl_cons, List.foldl_cons, ih]
    rfl

theorem foldl_processLine_navbar (ls : List Str) : ∀ st : ReadAcc,
    (ls.foldl processLine st).navbar
      = ls.foldl (fun u l => if strContains l kNavbar
          then strReplace l kNavbar [] == "true".data else u) st.navbar := by
  induction ls with
  | nil => intro st; rfl
  | cons l ls ih =>
    intro st
    rw [List.foldl_cons, List.foldl_cons, ih]
    rfl

theorem foldl_processLine_incognito (ls : List Str) : ∀ st : ReadAcc,
    (ls.foldl processLine st).is_incognito
      = ls.foldl (fun u l => if strContains l kPrivate
          then strReplace l kPrivate [] == "true".data else u)
          st.is_incognito := by
  induction ls with
  | nil => intro st; rfl
  | cons l ls ih =>
    intro st
    rw [List.foldl_cons, List.foldl_cons, ih]
    rfl

theorem foldl_processLine_isolate (ls : List Str) : ∀ st : ReadAcc,
    (ls.foldl processLine st).isolate_profile
      = ls.foldl (fun u l => if strContains l kIsolated
          then strReplace l kIsolated [] == "true".data else u)
          st.isolate_profile := by
  induction ls with
  | nil => intro st; rfl
  | cons l ls ih =>
    intro st
    rw [List.foldl_cons, List.foldl_cons, ih]
    rfl

/-- C1 (amended): round-trip of create followed by read, under the
boundary hypotheses the loose substring codec needs: every written value is
newline-free, the url does not contain the url or browser key token, the
browser display name does not contain the browser key token, and the
custom-parameters value (written on the last line) contains no X-WebApp key
token. -/
theorem read_create_roundtrip
    (l : WebAppLauncher) (home : Str) (supported : List Browser)
    (b : Browser) (p cod : Str)
    (hname : l.name ≠ []) (hicon : l.icon ≠ [])
    (hurl : url_valid l.url = true)
    (hinst : l.web_browser.is_installed = true)
    (hfind : Browser.web_browser supported l.web_browser.name = some b)
    (s1 : lineSafe l.name) (s2 : lineSafe l.icon) (s3 : lineSafe l.category)
    (s4 : lineSafe (l.exec_string home)) (s5 : lineSafe l.codename)
    (s6 : lineSafe l.web_browser.name) (s7 : lineSafe l.url)
    (s8 : lineSafe l.custom_parameters)
    (hu1 : strContains l.url kURL = false)
    (hu2 : strContains l.url kBrowser = false)
    (hb1 : strContains l.web_browser.name kBrowser = false)
    (hc1 : strContains l.custom_parameters kBrowser = false)
    (hc2 : strContains l.custom_parameters kURL = false)
    (hc3 : strContains l.custom_parameters kNavbar = false)
    (hc4 : strContains l.custom_parameters kPrivate = false)
    (hc5 : strContains l.custom_parameters kIsolated = false)
    (hc6 : strContains l.custom_parameters kCustom = false) :
    ∃ l2, WebAppLauncher.read supported (l.create home) p cod = some l2
      ∧ l2.url = l.url ∧ l2.navbar = l.navbar
      ∧ l2.is_incognito = l.is_incognito
      ∧ l2.isolate_profile = l.isolate_profile
      ∧ l2.custom_parameters = l.custom_parameters
      ∧ l2.web_browser.name = l.web_browser.name := by
  have hsafe : ∀ x ∈ l.create_lines home, '\n' ∉ x ∧ '\r' ∉ x := by
    intro x hx
    simp only [WebAppLauncher.create_lines, List.mem_cons,
      List.not_mem_nil, or_false] at hx
    rcases hx with rfl | rfl | rfl | rfl | rfl | rfl | rfl | rfl | rfl | rfl
      | rfl | rfl | rfl | rfl | rfl | rfl | rfl | rfl | rfl
    · exact (by decide)
    · exact (by decide)
    · exact lineSafe.append (by decide) s1
    · exact (by decide)
    · exact lineSafe.append (by decide) s4
    · exact (by decide)
    · exact (by decide)
    · exact lineSafe.append (by decide) s2
    · exact lineSafe.append (lineSafe.append (by decide) s3) (by decide)
    · exact (by decide)
    · exact lineSafe.append (by decide) s5
    · exact (by decide)
    · exact (by decide)
    · exact lineSafe.append (by decide) s6
    · exact lineSafe.append (by decide) s7
    · exact lineSafe.append (by decide) (lineSafe_boolStr _)
    · exact lineSafe.append (by decide) (lineSafe_boolStr _)
    · exact lineSafe.append (by decide) (lineSafe_boolStr _)
    · exact lineSafe.append (by decide) s8
  have hrl : rustLines (l.create home) = l.create_lines home :=
    rustLines_joinLines _ hsafe
  have h15B : strContains (kURL ++ l.url) kBrowser = false :=
    strContains_append_false kBrowser kURL l.url (by decide) hu2 (by decide)
  have h16B : strContains (kNavbar ++ boolStr l.navbar) kBrowser = false :=
    strContains_boolStr_append kNavbar l.navbar kBrowser (by decide)
      (by decide)
  have h17B : strContains (kPrivate ++ boolStr l.is_incognito) kBrowser
      = false :=
    strContains_boolStr_append kPrivate l.is_incognito kBrowser (by decide)
      (by decide)
  have h18B : strContains (kIsolated ++ boolStr l.isolate_profile) kBrowser
      = false :=
    strContains_boolStr_append kIsolated l.isolate_profile kBrowser
      (by decide) (by decide)
  have h19B : strContains (kCustom ++ l.custom_parameters) kBrowser = false :=
    strContains_append_false kBrowser kCustom l.custom_parameters (by decide)
      hc1 (by decide)
  have h16U : strContains (kNavbar ++ boolStr l.navbar) kURL = false :=
    strContains_boolStr_append kNavbar l.navbar kURL (by decide) (by decide)
  have h17U : strContains (kPrivate ++ boolStr l.is_incognito) kURL = false :=
    strContains_boolStr_append kPrivate l.is_incognito kURL (by decide)
      (by decide)
  have h18U : strContains (kIsolated ++ boolStr l.isolate_profile) kURL
      = false :=
    strContains_boolStr_append kIsolated l.isolate_profile kURL (by decide)
      (by decide)
  have h19U : strContains (kCustom ++ l.custom_parameters) kURL = false :=
    strContains_append_false kURL kCustom l.custom_parameters (by decide)
      hc2 (by decide)
  have h17N : strContains (kPrivate ++ boolStr l.is_incognito) kNavbar
      = false :=
    strContains_boolStr_append kPrivate l.is_incognito kNavbar (by decide)
      (by decide)
  have h18N : strContains (kIsolated ++ boolStr l.isolate_profile) kNavbar
      = false :=
    strContains_boolStr_append kIsolated l.isolate_profile kNavbar
      (by decide) (by decide)
  have h19N : strContains (kCustom ++ l.custom_parameters) kNavbar = false :=
    strContains_append_false kNavbar kCustom l.custom_parameters (by decide)
      hc3 (by decide)
  have h18P : strContains (kIsolated ++ boolStr l.isolate_profile) kPrivate
      = false :=
    strContains_boolStr_append kIsolated l.isolate_profile kPrivate
      (by decide) (by decide)
  have h19P : strContains (kCustom ++ l.custom_parameters) kPrivate = false :=
    strContains_append_false kPrivate kCustom l.custom_parameters (by decide)
      hc4 (by decide)
  have h19I : strContains (kCustom ++ l.custom_parameters) kIsolated
      = false :=
    strContains_append_false kIsolated kCustom l.custom_parameters
      (by decide) hc5 (by decide)
  have hposB : strContains (kBrowser ++ l.web_browser.name) kBrowser = true :=
    strContains_key_self kBrowser l.web_browser.name
  have hrepB : strReplace (kBrowser ++ l.web_browser.name) kBrowser []
      = l.web_browser.name :=
    strReplace_key_head kBrowser l.web_browser.name (by decide) hb1
  have hposU : strContains (kURL ++ l.url) kURL = true :=
    strContains_key_self kURL l.url
  have hrepU : strReplace (kURL ++ l.url) kURL [] = l.url :=
    strReplace_key_head kURL l.url (by decide) hu1
  have hposN : strContains (kNavbar ++ boolStr l.navbar) kNavbar = true :=
    strContains_key_self kNavbar (boolStr l.navbar)
  have hrepN : (strReplace (kNavbar ++ boolStr l.navbar) kNavbar []
      == "true".data) = l.navbar :=
    strReplace_key_boolStr kNavbar l.navbar (by decide) (by decide)
      (by decide) (by decide)
  have hposP : strContains (kPrivate ++ boolStr l.is_incognito) kPrivate
      = true :=
    strContains_key_self kPrivate (boolStr l.is_incognito)
  have hrepP : (strReplace (kPrivate ++ boolStr l.is_incognito) kPrivate []
      == "true".data) = l.is_incognito :=
    strReplace_key_boolStr kPrivate l.is_incognito (by decide) (by decide)
      (by decide) (by decide)
  have hposI : strContains (kIsolated ++ boolStr l.isolate_profile) kIsolated
      = true :=
    strContains_key_self kIsolated (boolStr l.isolate_profile)
  have hrepI : (strReplace (kIsolated ++ boolStr l.isolate_profile)
      kIsolated [] == "true".data) = l.isolate_profile :=
    strReplace_key_boolStr kIsolated l.isolate_profile (by decide)
      (by decide) (by decide) (by decide)
  have hposC : strContains (kCustom ++ l.custom_parameters) kCustom = true :=
    strContains_key_self kCustom l.custom_parameters
  have hrepC : strReplace (kCustom ++ l.custom_parameters) kCustom []
      = l.custom_parameters :=
    strReplace_key_head kCustom l.custom_parameters (by decide) hc6
  simp only [kBrowser, kURL, kNavbar, kPrivate, kIsolated, kCustom] at h15B h16B h17B h18B h19B
  simp only [kBrowser, kURL, kNavbar, kPrivate, kIsolated, kCustom] at h16U h17U h18U h19U
  simp only [kBrowser, kURL, kNavbar, kPrivate, kIsolated, kCustom] at h17N h18N h19N h18P h19P h19I
  simp only [kBrowser, kURL, kNavbar, kPrivate, kIsolated, kCustom] at hposB hrepB hposU hrepU
  simp only [kBrowser, kURL, kNavbar, kPrivate, kIsolated, kCustom] at hposN hrepN hposP hrepP
  simp only [kBrowser, kURL, kNavbar, kPrivate, kIsolated, kCustom] at hposI hrepI hposC hrepC
  have hbn : (List.foldl processLine {} (l.create_lines home)).browser_name
      = l.web_browser.name := by
    rw [foldl_processLine_browser_name]
    simp only [WebAppLauncher.create_lines, List.foldl_cons, List.foldl_nil,
      kBrowser]
    rw [ite_of_false _ _ _ h19B, ite_of_false _ _ _ h18B,
      ite_of_false _ _ _ h17B, ite_of_false _ _ _ h16B,
      ite_of_false _ _ _ h15B, ite_of_true _ _ _ hposB, hrepB]
  have hurlf : (List.foldl processLine {} (l.create_lines home)).url
      = l.url := by
    rw [foldl_processLine_url]
    simp only [WebAppLauncher.create_lines, List.foldl_cons, List.foldl_nil,
      kURL]
    rw [ite_of_false _ _ _ h19U, ite_of_false _ _ _ h18U,
      ite_of_false _ _ _ h17U, ite_of_false _ _ _ h16U,
      ite_of_true _ _ _ hposU, hrepU]
  have hnavf : (List.foldl processLine {} (l.create_lines home)).navbar
      = l.navbar := by
    rw [foldl_processLine_navbar]
    simp only [WebAppLauncher.create_lines, List.foldl_cons, List.foldl_nil,
      kNavbar]
    rw [ite_of_false _ _ _ h19N, ite_of_false _ _ _ h18N,
      ite_of_false _ _ _ h17N, ite_of_true _ _ _ hposN, hrepN]
  have hincf : (List.foldl processLine {} (l.create_lines home)).is_incognito
      = l.is_incognito := by
    rw [foldl_processLine_incognito]
    simp only [WebAppLauncher.create_lines, List.foldl_cons, List.foldl_nil,
      kPrivate]
    rw [ite_of_false _ _ _ h19P, ite_of_false _ _ _ h18P,
      ite_of_true _ _ _ hposP, hrepP]
  have hisof :
      (List.foldl processLine {} (l.create_lines home)).isolate_profile
      = l.isolate_profile := by
    rw [foldl_processLine_isolate]
    simp only [WebAppLauncher.create_lines, List.foldl_cons, List.foldl_nil,
      kIsolated]
    rw [ite_of_false _ _ _ h19I, ite_of_true _ _ _ hposI, hrepI]
  have hcusf :
      (List.foldl processLine {} (l.create_lines home)).custom_parameters
      = l.custom_parameters := by
    rw [foldl_processLine_custom]
    simp only [WebAppLauncher.create_lines, List.foldl_cons, List.foldl_nil,
      kCustom]
    rw [ite_of_true _ _ _ hposC, hrepC]
  have hbname : b.name = l.web_browser.name := by
    have hfind2 : List.find? (fun x => x.name == l.web_browser.name) supported
        = some b := hfind
    exact eq_of_beq (List.find?_eq_some.mp hfind2).1
  simp only [WebAppLauncher.read, hrl]
  rw [hbn, hfind]
  refine ⟨_, rfl, ?_, ?_, ?_, ?_, ?_, ?_⟩
  · exact hurlf
  · exact hnavf
  · exact hincf
  · exact hisof
  · exact hcusf
  · exact hbname

/-- C1 counterexample: a launcher meeting every hypothesis of the claim
(non-empty name and icon, valid url, installed browser, browser resolvable
on read) whose read-back url is not its url: the custom-parameters line is
scanned last and contains the url key token, so it overwrites the url. -/
theorem read_create_roundtrip_cex :
    c1Launcher.name ≠ [] ∧ c1Launcher.icon ≠ []
    ∧ url_valid c1Launcher.url = true
    ∧ c1Launcher.web_browser.is_installed = true
    ∧ (WebAppLauncher.read c1Supported (c1Launcher.create c1Home) []
        "c".data).map WebAppLauncher.url
        = some "X-WebApp-CustomParameters=x".data
    ∧ "X-WebApp-CustomParameters=x".data ≠ c1Launcher.url := by decide

/-- C1 witness: the amended round-trip theorem applied to a concrete clean
launcher. -/
theorem read_create_roundtrip_witness :
    ∃ l2, WebAppLauncher.read [c1Browser] (c1CleanLauncher.create c1Home)
        [] "c".data = some l2
      ∧ l2.url = c1CleanLauncher.url ∧ l2.navbar = c1CleanLauncher.navbar
      ∧ l2.is_incognito = c1CleanLauncher.is_incognito
      ∧ l2.isolate_profile = c1CleanLauncher.isolate_profile
      ∧ l2.custom_parameters = c1CleanLauncher.custom_parameters
      ∧ l2.web_browser.name = c1CleanLauncher.web_browser.name :=
  read_create_roundtrip c1CleanLauncher c1Home [c1Browser] c1Browser []
    "c".data (by decide) (by decide) (by decide) (by decide) (by decide)
    (by decide) (by decide) (by decide) (by decide) (by decide) (by decide)
    (by decide) (by decide) (by decide) (by decide) (by decide) (by decide)
    (by decide) (by decide) (by decide) (by decide) (by decide)

/-- C2 (amended): the validity flag of a launcher built by new implies all
four checks (non-empty name and icon, syntactically valid url, installed
browser); the validity flag of a launcher reconstructed by read implies
only non-empty name and icon together with the webapp marker — read checks
neither url syntax nor installedness (the probed list read resolves
browsers against starts with the NoBrowser sentinel). -/
theorem valid_invariant :
    (∀ (home : Str) (rc : Nat) (nm : Str) (cod : Option Str)
      (url icon cat : Str) (br : Browser) (cust : Str) (iso nav priv : Bool),
      (WebAppLauncher.new home rc nm cod url icon cat br cust
        iso nav priv).is_valid = true →
      nm ≠ [] ∧ icon ≠ [] ∧ url_valid url = true ∧ br.is_installed = true)
    ∧ (∀ (supported : List Browser) (contents p cod : Str)
      (l2 : WebAppLauncher),
      WebAppLauncher.read supported contents p cod = some l2 →
      l2.is_valid = true → l2.name ≠ [] ∧ l2.icon ≠ []) := by
  constructor
  · intro home rc nm cod url icon cat br cust iso nav priv h
    simp only [WebAppLauncher.new, Bool.and_eq_true, Bool.not_eq_true',
      List.isEmpty_eq_false] at h
    exact ⟨h.1.1.1, h.1.1.2, h.1.2, h.2⟩
  · intro supported contents p cod l2 hread hval
    simp only [WebAppLauncher.read] at hread
    cases hfind : Browser.web_browser supported
        ((rustLines contents).foldl processLine {}).browser_name with
    | none =>
      rw [hfind] at hread
      cases hread
    | some wb =>
      rw [hfind] at hread
      have hl2 := Option.some.inj hread
      rw [← hl2] at hval ⊢
      simp only [Bool.and_eq_true, Bool.not_eq_true',
        List.isEmpty_eq_false] at hval
      exact ⟨hval.1.2, hval.2⟩

/-- C2 counterexample: a file read back through the sentinel-led probe list
yields a launcher with is_valid true whose browser is not installed and
whose url is not syntactically valid. -/
theorem valid_invariant_cex :
    (WebAppLauncher.read c2Supported c2Contents [] "c".data).map
      (fun l => (l.is_valid, l.web_browser.is_installed, url_valid l.url))
      = some (true, false, false) := by decide

/-- C2 witness: both halves of the amended invariant applied to concrete
inputs. -/
theorem valid_invariant_witness :
    ("a".data ≠ ([] : Str) ∧ "i".data ≠ ([] : Str)
      ∧ url_valid "https://e.com".data = true
      ∧ c2NewBrowser.is_installed = true)
    ∧ (c2ReadResult.name ≠ [] ∧ c2ReadResult.icon ≠ []) :=
  ⟨valid_invariant.1 "/h".data 1234 "a".data (some "c".data)
      "https://e.com".data "i".data [] c2NewBrowser [] false false false
      (by decide),
    valid_invariant.2 c2Supported c2Contents [] "c".data c2ReadResult
      (by decide) (by decide)⟩

/-- Bool form of not_prefix_append. -/
theorem isPrefixOf_append_eq_false (t a b : Str) (c : Char)
    (hta : List.isPrefixOf t a = false) (hhd : b.head? = some c)
    (hc : c ∉ t) : List.isPrefixOf t (a ++ b) = false := by
  rw [Bool.eq_false_iff] at hta ⊢
  intro h
  rw [ List.isPrefixOf_iff_prefix] at h
  exact not_prefix_append t a b c
    (fun hp => hta ( List.isPrefixOf_iff_prefix.mpr hp)) hhd hc h

/-- Like strContains_append_false but the boundary condition may be settled
on the right: wherever a nonempty proper initial piece of pat ends the left
part, the matching rest of pat must fail to start the right part. -/
theorem strContains_append_false_mixed (pat a b : Str)
    (ha : strContains a pat = false) (hb : strContains b pat = false)
    (hspan : ∀ i, 0 < i → i < pat.length →
      List.isSuffixOf (pat.take i) a = true →
      List.isPrefixOf (pat.drop i) b = false) :
    strContains (a ++ b) pat = false := by
  rw [strContains_eq_false_iff] at ha hb ⊢
  intro h
  rcases infix_append_cases h with h1 | h2 | ⟨i, hi0, hilen, hsuf, hpre⟩
  · exact ha h1
  · exact hb h2
  · have hfalse := hspan i hi0 hilen (List.isSuffixOf_iff_suffix.mpr hsuf)
    rw [Bool.eq_false_iff] at hfalse
    exact hfalse ( List.isPrefixOf_iff_prefix.mpr hpre)

/-- The space character of a pattern piece: characters of a drop are
characters of the whole. -/
theorem not_mem_drop_of_not_mem {c : Char} {l : Str} (h : c ∉ l) (n : Nat) :
    c ∉ l.drop n := fun hmem => h (List.mem_of_mem_drop hmem)

/-- Core containment bound for the chromium command skeleton: a pattern
free of spaces that occurs in none of the launcher parts, cannot end at any
of the concrete segment boundaries, and does not continue into the
codename, does not occur in the assembled skeleton (R is the rest of the
command after the trailing space; it must start with that space). -/
theorem exec_chromium_core_contains_false (pat exec url cod R : Str)
    (hsp : ' ' ∉ pat)
    (hexec : strContains exec pat = false)
    (hurl : strContains url pat = false)
    (hcod : strContains cod pat = false)
    (hdrop : List.isPrefixOf (pat.drop 1) cod = false)
    (hA : strContains " --app=".data pat = false)
    (hAspan : ∀ i < pat.length, 0 < i →
      List.isSuffixOf (pat.take i) " --app=".data = false)
    (hC : strContains " --class=WebApp-".data pat = false)
    (hCspan : ∀ i < pat.length, 1 < i →
      List.isSuffixOf (pat.take i) " --class=WebApp-".data = false)
    (hN : strContains " --name=WebApp-".data pat = false)
    (hNspan : ∀ i < pat.length, 1 < i →
      List.isSuffixOf (pat.take i) " --name=WebApp-".data = false)
    (hR : strContains R pat = false)
    (hRhd : R.head? = some ' ') :
    strContains (exec ++ (" --app=".data ++ (url ++ (" --class=WebApp-".data
      ++ (cod ++ (" --name=WebApp-".data ++ (cod ++ R))))))) pat = false := by
  have h1 : strContains (cod ++ R) pat = false :=
    strContains_append_false_hd pat cod R ' ' hcod hR hRhd hsp
  have h1hd : (cod ++ R).head? = some ' ' ∨ (cod ++ R).head? = cod.head? := by
    cases cod with
    | nil => exact Or.inl (by simpa using hRhd)
    | cons c cs => exact Or.inr rfl
  have h2 : strContains (" --name=WebApp-".data ++ (cod ++ R)) pat
      = false := by
    refine strContains_append_false_mixed pat _ _ hN h1 ?_
    intro i hi0 hilen hsuf
    by_cases hi1 : i = 1
    · subst hi1
      exact isPrefixOf_append_eq_false _ cod R ' ' hdrop hRhd
        (not_mem_drop_of_not_mem hsp 1)
    · have := hNspan i hilen (by omega)
      rw [this] at hsuf
      cases hsuf
  have h3 : strContains (cod ++ (" --name=WebApp-".data ++ (cod ++ R))) pat
      = false :=
    strContains_append_false_hd pat cod _ ' ' hcod h2 rfl hsp
  have h4 : strContains (" --class=WebApp-".data
      ++ (cod ++ (" --name=WebApp-".data ++ (cod ++ R)))) pat = false := by
    refine strContains_append_false_mixed pat _ _ hC h3 ?_
    intro i hi0 hilen hsuf
    by_cases hi1 : i = 1
    · subst hi1
      exact isPrefixOf_append_eq_false _ cod _ ' ' hdrop rfl
        (not_mem_drop_of_not_mem hsp 1)
    · have := hCspan i hilen (by omega)
      rw [this] at hsuf
      cases hsuf
  have h5 : strContains (url ++ (" --class=WebApp-".data
      ++ (cod ++ (" --name=WebApp-".data ++ (cod ++ R))))) pat = false :=
    strContains_append_false_hd pat url _ ' ' hurl h4 rfl hsp
  have h6 : strContains (" --app=".data ++ (url ++ (" --class=WebApp-".data
      ++ (cod ++ (" --name=WebApp-".data ++ (cod ++ R)))))) pat = false := by
    refine strContains_append_false_mixed pat _ _ hA h5 ?_
    intro i hi0 hilen hsuf
    have := hAspan i hilen hi0
    rw [this] at hsuf
    cases hsuf
  exact strContains_append_false_hd pat exec _ ' ' hexec h6 rfl hsp

/-- C3 (amended): for a Chromium-family launcher whose exec path, url,
codename and custom parameters do not carry the flag texts (and whose
codename does not begin with a flag text minus its first dash),
(1) with isolation and incognito off the synthesized command contains none
of the substrings --user-data-dir, --incognito, --inprivate;
(2) with incognito on, the command is the skeleton plus exactly one
emitted incognito flag: --inprivate when the browser display name starts
with Microsoft Edge, --incognito otherwise;
(3) with incognito on and isolation off, the command contains --inprivate
iff the name starts with Microsoft Edge, and --incognito iff it does
not. -/
theorem exec_chromium_flags (l : WebAppLauncher) (home : Str)
    (htype : l.web_browser._type = BrowserType.Chromium)
    (fE : flagFree l.exec) (fU : flagFree l.url) (fC : flagFree l.codename)
    (fP : flagFree l.custom_parameters)
    (hd1 : List.isPrefixOf "-user-data-dir".data l.codename = false)
    (hd2 : List.isPrefixOf "-incognito".data l.codename = false)
    (hd3 : List.isPrefixOf "-inprivate".data l.codename = false) :
    (l.isolate_profile = false → l.is_incognito = false →
      strContains (l.exec_string home) "--user-data-dir".data = false
      ∧ strContains (l.exec_string home) "--incognito".data = false
      ∧ strContains (l.exec_string home) "--inprivate".data = false)
    ∧ (l.is_incognito = true →
      l.exec_string home
        = ((if l.isolate_profile then
              l.exec ++ " --app=".data ++ l.url ++ " --class=WebApp-".data
                ++ l.codename ++ " --name=WebApp-".data ++ l.codename
                ++ " ".data ++ "--user-data-dir=".data
                ++ iceProfilePath home l.codename ++ " ".data
            else
              l.exec ++ " --app=".data ++ l.url ++ " --class=WebApp-".data
                ++ l.codename ++ " --name=WebApp-".data ++ l.codename
                ++ " ".data)
          ++ (if List.isPrefixOf "Microsoft Edge".data l.web_browser.name
              then "--inprivate ".data else "--incognito ".data))
          ++ (if l.custom_parameters.isEmpty then []
              else l.custom_parameters ++ " ".data))
    ∧ (l.is_incognito = true → l.isolate_profile = false →
      strContains (l.exec_string home) "--inprivate".data
        = List.isPrefixOf "Microsoft Edge".data l.web_browser.name
      ∧ strContains (l.exec_string home) "--incognito".data
        = !List.isPrefixOf "Microsoft Edge".data l.web_browser.name) := by
  have hdisp : l.exec_string home = l.exec_chromium home := by
    unfold WebAppLauncher.exec_string
    rw [htype]
  refine ⟨?_, ?_, ?_⟩
  · intro hiso hinc
    rw [hdisp]
    simp only [WebAppLauncher.exec_chromium, hiso, hinc, Bool.false_eq_true,
      if_false]
    cases hcust : l.custom_parameters.isEmpty with
    | true =>
      simp only [hcust, Bool.not_true, Bool.false_eq_true, if_false]
      simp only [List.append_assoc]
      refine ⟨?_, ?_, ?_⟩
      · exact exec_chromium_core_contains_false "--user-data-dir".data
          l.exec l.url l.codename " ".data (by decide) fE.1 fU.1 fC.1 hd1
          (by decide) (by decide) (by decide) (by decide) (by decide)
          (by decide) (by decide) rfl
      · exact exec_chromium_core_contains_false "--incognito".data
          l.exec l.url l.codename " ".data (by decide) fE.2.1 fU.2.1 fC.2.1
          hd2 (by decide) (by decide) (by decide) (by decide) (by decide)
          (by decide) (by decide) rfl
      · exact exec_chromium_core_contains_false "--inprivate".data
          l.exec l.url l.codename " ".data (by decide) fE.2.2 fU.2.2 fC.2.2
          hd3 (by decide) (by decide) (by decide) (by decide) (by decide)
          (by decide) (by decide) rfl
    | false =>
      simp only [hcust, Bool.not_false, if_true]
      simp only [List.append_assoc]
      have hR : ∀ pat : Str, strContains l.custom_parameters pat = false →
          strContains [' '] pat = false →
          (∀ i < pat.length, 0 < i →
            List.isSuffixOf (pat.take i) [' '] = false) →
          (' ' ∉ pat) →
          strContains (' ' :: (l.custom_parameters ++ [' '])) pat
            = false := by
        intro pat hcustf hsp1 hspan hspmem
        have hinner : strContains (l.custom_parameters ++ [' ']) pat
            = false :=
          strContains_append_false_hd pat l.custom_parameters [' '] ' '
            hcustf (by exact hsp1) rfl hspmem
        have : strContains ([' '] ++ (l.custom_parameters ++ [' '])) pat
            = false :=
          strContains_append_false pat [' '] _ hsp1 hinner hspan
        simpa using this
      refine ⟨?_, ?_, ?_⟩
      · exact exec_chromium_core_contains_false "--user-data-dir".data
          l.exec l.url l.codename (' ' :: (l.custom_parameters ++ [' ']))
          (by decide) fE.1 fU.1 fC.1 hd1 (by decide) (by decide) (by decide)
          (by decide) (by decide) (by decide)
          (hR _ fP.1 (by decide) (by decide) (by decide)) rfl
      · exact exec_chromium_core_contains_false "--incognito".data
          l.exec l.url l.codename (' ' :: (l.custom_parameters ++ [' ']))
          (by decide) fE.2.1 fU.2.1 fC.2.1 hd2 (by decide) (by decide)
          (by decide) (by decide) (by decide) (by decide)
          (hR _ fP.2.1 (by decide) (by decide) (by decide)) rfl
      · exact exec_chromium_core_contains_false "--inprivate".data
          l.exec l.url l.codename (' ' :: (l.custom_parameters ++ [' ']))
          (by decide) fE.2.2 fU.2.2 fC.2.2 hd3 (by decide) (by decide)
          (by decide) (by decide) (by decide) (by decide)
          (hR _ fP.2.2 (by decide) (by decide) (by decide)) rfl
  · intro hinc
    rw [hdisp]
    simp only [WebAppLauncher.exec_chromium, hinc, if_true]
    cases hiso : l.isolate_profile <;>
      cases hedge : List.isPrefixOf "Microsoft Edge".data
        l.web_browser.name <;>
      cases hcust : l.custom_parameters.isEmpty <;>
      simp [hiso, hedge, hcust, List.append_assoc]
  · intro hinc hiso
    rw [hdisp]
    simp only [WebAppLauncher.exec_chromium, hinc, hiso, eq_self_iff_true,
      if_true, Bool.false_eq_true, if_false]
    cases hedge : List.isPrefixOf "Microsoft Edge".data
        l.web_browser.name with
    | true =>
      cases hcust : l.custom_parameters.isEmpty with
      | true =>
        simp only [hcust, Bool.not_true, Bool.false_eq_true, if_false,
          eq_self_iff_true, if_true, List.append_assoc]
        constructor
        · refine strContains_append_right _ _ _ ?_
          refine strContains_append_right _ _ _ ?_
          refine strContains_append_right _ _ _ ?_
          refine strContains_append_right _ _ _ ?_
          refine strContains_append_right _ _ _ ?_
          refine strContains_append_right _ _ _ ?_
          refine strContains_append_right _ _ _ ?_
          refine strContains_append_right _ _ _ ?_
          decide
        · have hflag : strContains (' ' :: "--inprivate ".data)
              "--incognito".data = false := by decide
          exact exec_chromium_core_contains_false "--incognito".data
            l.exec l.url l.codename (' ' :: "--inprivate ".data)
            (by decide) fE.2.1 fU.2.1 fC.2.1 hd2 (by decide) (by decide)
            (by decide) (by decide) (by decide) (by decide) hflag rfl
      | false =>
        simp only [hcust, Bool.not_false, Bool.false_eq_true, if_false,
          eq_self_iff_true, if_true, List.append_assoc]
        constructor
        · refine strContains_append_right _ _ _ ?_
          refine strContains_append_right _ _ _ ?_
          refine strContains_append_right _ _ _ ?_
          refine strContains_append_right _ _ _ ?_
          refine strContains_append_right _ _ _ ?_
          refine strContains_append_right _ _ _ ?_
          refine strContains_append_right _ _ _ ?_
          refine strContains_append_right _ _ _ ?_
          refine strContains_append_left _ _ _ ?_
          decide
        · have hflag : strContains (' ' :: ("--inprivate ".data
              ++ (l.custom_parameters ++ [' ']))) "--incognito".data
              = false := by
            have hinner2 : strContains (l.custom_parameters ++ [' '])
                "--incognito".data = false :=
              strContains_append_false_hd _ l.custom_parameters [' '] ' '
                fP.2.1 (by decide) rfl (by decide)
            have hinner : strContains ("--inprivate ".data
                ++ (l.custom_parameters ++ [' '])) "--incognito".data
                = false :=
              strContains_append_false _ "--inprivate ".data _ (by decide)
                hinner2 (by decide)
            have houter : strContains ([' '] ++ ("--inprivate ".data
                ++ (l.custom_parameters ++ [' ']))) "--incognito".data
                = false :=
              strContains_append_false _ [' '] _ (by decide) hinner
                (by decide)
            simpa using houter
          exact exec_chromium_core_contains_false "--incognito".data
            l.exec l.url l.codename
            (' ' :: ("--inprivate ".data ++ (l.custom_parameters ++ [' '])))
            (by decide) fE.2.1 fU.2.1 fC.2.1 hd2 (by decide) (by decide)
            (by decide) (by decide) (by decide) (by decide) hflag rfl
    | false =>
      cases hcust : l.custom_parameters.isEmpty with
      | true =>
        simp only [hcust, Bool.not_true, Bool.false_eq_true, if_false,
          eq_self_iff_true, if_true, List.append_assoc]
        constructor
        · have hflag : strContains (' ' :: "--incognito ".data)
              "--inprivate".data = false := by decide
          exact exec_chromium_core_contains_false "--inprivate".data
            l.exec l.url l.codename (' ' :: "--incognito ".data)
            (by decide) fE.2.2 fU.2.2 fC.2.2 hd3 (by decide) (by decide)
            (by decide) (by decide) (by decide) (by decide) hflag rfl
        · refine strContains_append_right _ _ _ ?_
          refine strContains_append_right _ _ _ ?_
          refine strContains_append_right _ _ _ ?_
          refine strContains_append_right _ _ _ ?_
          refine strContains_append_right _ _ _ ?_
          refine strContains_append_right _ _ _ ?_
          refine strContains_append_right _ _ _ ?_
          refine strContains_append_right _ _ _ ?_
          decide
      | false =>
        simp only [hcust, Bool.not_false, Bool.false_eq_true, if_false,
          eq_self_iff_true, if_true, List.append_assoc]
        constructor
        · have hflag : strContains (' ' :: ("--incognito ".data
              ++ (l.custom_parameters ++ [' ']))) "--inprivate".data
              = false := by
            have hinner2 : strContains (l.custom_parameters ++ [' '])
                "--inprivate".data = false :=
              strContains_append_false_hd _ l.custom_parameters [' '] ' '
                fP.2.2 (by decide) rfl (by decide)
            have hinner : strContains ("--incognito ".data
                ++ (l.custom_parameters ++ [' '])) "--inprivate".data
                = false :=
              strContains_append_false _ "--incognito ".data _ (by decide)
                hinner2 (by decide)
            have houter : strContains ([' '] ++ ("--incognito ".data
                ++ (l.custom_parameters ++ [' ']))) "--inprivate".data
                = false :=
              strContains_append_false _ [' '] _ (by decide) hinner
                (by decide)
            simpa using houter
          exact exec_chromium_core_contains_false "--inprivate".data
            l.exec l.url l.codename
            (' ' :: ("--incognito ".data ++ (l.custom_parameters ++ [' '])))
            (by decide) fE.2.2 fU.2.2 fC.2.2 hd3 (by decide) (by decide)
            (by decide) (by decide) (by decide) (by decide) hflag rfl
        · refine strContains_append_right _ _ _ ?_
          refine strContains_append_right _ _ _ ?_
          refine strContains_append_right _ _ _ ?_
          refine strContains_append_right _ _ _ ?_
          refine strContains_append_right _ _ _ ?_
          refine strContains_append_right _ _ _ ?_
          refine strContains_append_right _ _ _ ?_
          refine strContains_append_right _ _ _ ?_
          refine strContains_append_left _ _ _ ?_
          decide

/-- C3 counterexample: with isolation and incognito both off but custom
parameters set to --incognito, the synthesized command does contain
--incognito, refuting the claim quantified over all custom_parameters. -/
theorem exec_chromium_flags_cex :
    c3Launcher.web_browser._type = BrowserType.Chromium
    ∧ c3Launcher.isolate_profile = false
    ∧ c3Launcher.is_incognito = false
    ∧ strContains (c3Launcher.exec_string "/h".data) "--incognito".data
      = true := by decide

/-- C3 witness: the amended flag theorem applied to a concrete flag-free
chromium launcher. -/
theorem exec_chromium_flags_witness :
    strContains (c3Clean.exec_string "/h".data) "--user-data-dir".data
      = false
    ∧ strContains (c3Clean.exec_string "/h".data) "--incognito".data = false
    ∧ strContains (c3Clean.exec_string "/h".data) "--inprivate".data
      = false :=
  (exec_chromium_flags c3Clean "/h".data (by decide) (by decide) (by decide)
    (by decide) (by decide) (by decide) (by decide) (by decide)).1 rfl rfl

theorem pathJoin_ne_of_ne (a b c : Str) (h : b ≠ c) :
    pathJoin a b ≠ pathJoin a c := by
  unfold pathJoin
  cases he : a.isEmpty
  · simp only [Bool.false_eq_true, if_false]
    intro hx
    have h2 := List.append_cancel_left hx
    exact h (List.cons.inj h2).2
  · simp only [if_true]
    exact h

/-- C4 (amended): for the Firefox family, command synthesis embeds the
profile directory profile-root/codename where the root is fixed per fork
string; native Firefox and flatpak Firefox are dispatched with the same
fork string and so share the flatpak Firefox profile root, while the
librewolf and waterfox roots are distinct from it and from each other. -/
theorem exec_firefox_profile (l : WebAppLauncher) (home : Str) :
    (l.web_browser._type = BrowserType.Firefox
        ∨ l.web_browser._type = BrowserType.FirefoxFlatpak →
      l.exec_string home
        = l.exec ++ " --class WebApp-".data ++ l.codename
          ++ " --name WebApp-".data ++ l.codename ++ " --profile ".data
          ++ pathJoin (pathJoin home
              ".var/app/org.mozilla.firefox/data/ice/firefox".data)
            l.codename
          ++ " --no-remote ".data
          ++ (if l.is_incognito then "--private-window ".data else [])
          ++ (if l.custom_parameters.isEmpty then []
              else l.custom_parameters ++ " ".data)
          ++ l.url)
    ∧ (l.web_browser._type = BrowserType.Librewolf →
      l.exec_string home
        = l.exec ++ " --class WebApp-".data ++ l.codename
          ++ " --name WebApp-".data ++ l.codename ++ " --profile ".data
          ++ pathJoin (pathJoin home
              ".var/app/io.gitlab.librewolf-community/data/ice/librewolf".data)
            l.codename
          ++ " --no-remote ".data
          ++ (if l.is_incognito then "--private-window ".data else [])
          ++ (if l.custom_parameters.isEmpty then []
              else l.custom_parameters ++ " ".data)
          ++ l.url)
    ∧ (l.web_browser._type = BrowserType.WaterfoxFlatpak →
      l.exec_string home
        = l.exec ++ " --class WebApp-".data ++ l.codename
          ++ " --name WebApp-".data ++ l.codename ++ " --profile ".data
          ++ pathJoin (pathJoin home
              ".var/app/net.waterfox.waterfox/data/ice/waterfox".data)
            l.codename
          ++ " --no-remote ".data
          ++ (if l.is_incognito then "--private-window ".data else [])
          ++ (if l.custom_parameters.isEmpty then []
              else l.custom_parameters ++ " ".data)
          ++ l.url)
    ∧ pathJoin home ".var/app/org.mozilla.firefox/data/ice/firefox".data
      ≠ pathJoin home
        ".var/app/io.gitlab.librewolf-community/data/ice/librewolf".data
    ∧ pathJoin home ".var/app/org.mozilla.firefox/data/ice/firefox".data
      ≠ pathJoin home ".var/app/net.waterfox.waterfox/data/ice/waterfox".data
    ∧ pathJoin home
        ".var/app/io.gitlab.librewolf-community/data/ice/librewolf".data
      ≠ pathJoin home
        ".var/app/net.waterfox.waterfox/data/ice/waterfox".data := by
  refine ⟨?_, ?_, ?_, ?_, ?_, ?_⟩
  · intro htype
    have hdisp : l.exec_string home = l.exec_firefox home "firefox".data := by
      rcases htype with h | h <;> (unfold WebAppLauncher.exec_string; rw [h])
    rw [hdisp]
    unfold WebAppLauncher.exec_firefox firefox_profile_dir
    rw [if_pos rfl]
    cases hinc : l.is_incognito <;>
      cases hcust : l.custom_parameters.isEmpty <;>
      simp [hinc, hcust, List.append_assoc]
  · intro htype
    have hdisp : l.exec_string home
        = l.exec_firefox home "librewolf".data := by
      unfold WebAppLauncher.exec_string
      rw [htype]
    rw [hdisp]
    unfold WebAppLauncher.exec_firefox firefox_profile_dir
    rw [if_neg (by decide), if_pos rfl]
    cases hinc : l.is_incognito <;>
      cases hcust : l.custom_parameters.isEmpty <;>
      simp [hinc, hcust, List.append_assoc]
  · intro htype
    have hdisp : l.exec_string home
        = l.exec_firefox home "waterfox".data := by
      unfold WebAppLauncher.exec_string
      rw [htype]
    rw [hdisp]
    unfold WebAppLauncher.exec_firefox firefox_profile_dir
    rw [if_neg (by decide), if_neg (by decide), if_pos rfl]
    cases hinc : l.is_incognito <;>
      cases hcust : l.custom_parameters.isEmpty <;>
      simp [hinc, hcust, List.append_assoc]
  · exact pathJoin_ne_of_ne _ _ _ (by decide)
  · exact pathJoin_ne_of_ne _ _ _ (by decide)
  · exact pathJoin_ne_of_ne _ _ _ (by decide)

/-- C4 counterexample: a native-Firefox launcher and a flatpak-Firefox
launcher that agree on every other field synthesize identical commands and
identical profile directories: native and sandboxed Firefox share the same
profile root, contrary to the claim. -/
theorem exec_firefox_profile_cex :
    c4Native.web_browser._type = BrowserType.Firefox
    ∧ c4Flatpak.web_browser._type = BrowserType.FirefoxFlatpak
    ∧ c4Native.exec_string "/h".data = c4Flatpak.exec_string "/h".data
    ∧ firefox_profile_dir "/h".data "firefox".data
      = pathJoin "/h".data
        ".var/app/org.mozilla.firefox/data/ice/firefox".data := by decide

/-- C4 witness: the amended profile-directory theorem applied to a concrete
Librewolf launcher. -/
theorem exec_firefox_profile_witness :
    c4Librewolf.exec_string "/h".data
      = c4Librewolf.exec ++ " --class WebApp-".data ++ c4Librewolf.codename
        ++ " --name WebApp-".data ++ c4Librewolf.codename
        ++ " --profile ".data
        ++ pathJoin (pathJoin "/h".data
            ".var/app/io.gitlab.librewolf-community/data/ice/librewolf".data)
          c4Librewolf.codename
        ++ " --no-remote ".data
        ++ (if c4Librewolf.is_incognito then "--private-window ".data
            else [])
        ++ (if c4Librewolf.custom_parameters.isEmpty then []
            else c4Librewolf.custom_parameters ++ " ".data)
        ++ c4Librewolf.url :=
  (exec_firefox_profile c4Librewolf "/h".data).2.1 rfl

/-- C5: the files written while computing a Firefox-family exec string:
user.js always receives the bundled preference payload; chrome/userChrome.css
receives the empty byte string when the navbar is kept and exactly the
bundled stylesheet bytes when it is not. -/
theorem exec_firefox_writes_navbar (l : WebAppLauncher) (home fork : Str)
    (user_js user_chrome_css : List Nat) :
    l.exec_firefox_writes home fork user_js user_chrome_css
      = [ (pathJoin (pathJoin (firefox_profile_dir home fork) l.codename)
            "user.js".data, user_js),
          (pathJoin (pathJoin (pathJoin (firefox_profile_dir home fork)
              l.codename) "chrome".data) "userChrome.css".data,
            create_user_chrome_css user_chrome_css l.navbar) ]
    ∧ (l.navbar = true →
        create_user_chrome_css user_chrome_css l.navbar = [])
    ∧ (l.navbar = false →
        create_user_chrome_css user_chrome_css l.navbar
          = user_chrome_css) := by
  refine ⟨rfl, ?_, ?_⟩
  · intro h
    rw [create_user_chrome_css, h]
    rfl
  · intro h
    rw [create_user_chrome_css, h]
    rfl

/-- C5 witness: the write bytes at a concrete navbar-on launcher. -/
theorem exec_firefox_writes_navbar_witness :
    create_user_chrome_css [1, 2, 3] c5Launcher.navbar = [] :=
  (exec_firefox_writes_navbar c5Launcher "/h".data "firefox".data [9]
    [1, 2, 3]).2.1 rfl

/-- C6 (amended): delete reports success whenever the entry file is absent,
regardless of whether the profile-directory removal succeeds (its outcome
is ignored entirely); the profile directory it attempts to remove lies
under the per-family flatpak profile root for the three flatpak Firefox
forks.  (Native Firefox falls into the default arm and gets
home/codename — see the frame-effect theorem for C10.) -/
theorem delete_best_effort (l : WebAppLauncher) (home : Str) :
    (∀ rf rd, (l.delete home false rf rd).1 = Except.ok ())
    ∧ (∀ rf rd, (l.delete home false rf rd).2
        = some (l.delete_profile_path home))
    ∧ (∀ fe rf rd rd2, l.delete home fe rf rd = l.delete home fe rf rd2)
    ∧ (l.web_browser._type = BrowserType.FirefoxFlatpak →
        l.delete_profile_path home
          = pathJoin (pathJoin home
              ".var/app/org.mozilla.firefox/data/ice/firefox".data)
            l.codename)
    ∧ (l.web_browser._type = BrowserType.Librewolf →
        l.delete_profile_path home
          = pathJoin (pathJoin home
              ".var/app/io.gitlab.librewolf-community/data/ice/librewolf".data)
            l.codename)
    ∧ (l.web_browser._type = BrowserType.WaterfoxFlatpak →
        l.delete_profile_path home
          = pathJoin (pathJoin home
              ".var/app/net.waterfox.waterfox/data/ice/waterfox".data)
            l.codename) := by
  refine ⟨?_, ?_, ?_, ?_, ?_, ?_⟩
  · intro rf rd
    rfl
  · intro rf rd
    rfl
  · intro fe rf rd rd2
    rfl
  · intro htype
    unfold WebAppLauncher.delete_profile_path
    rw [htype]
  · intro htype
    unfold WebAppLauncher.delete_profile_path
    rw [htype]
  · intro htype
    unfold WebAppLauncher.delete_profile_path
    rw [htype]

/-- C6 counterexample: a native-Firefox launcher (a Firefox-family browser)
whose delete attempts to remove home/codename, which is not under the
Firefox family profile root used by command synthesis. -/
theorem delete_best_effort_cex :
    c6Native.web_browser._type = BrowserType.Firefox
    ∧ (c6Native.delete "/h".data false true true).2
      = some (pathJoin "/h".data "c".data)
    ∧ pathJoin "/h".data "c".data
      ≠ pathJoin (firefox_profile_dir "/h".data "firefox".data)
        "c".data := by decide

/-- C6 witness: the amended deletion theorem applied to a concrete flatpak
Firefox launcher. -/
theorem delete_best_effort_witness :
    (c6Flatpak.delete "/h".data false true false).1 = Except.ok ()
    ∧ c6Flatpak.delete_profile_path "/h".data
      = pathJoin (pathJoin "/h".data
          ".var/app/org.mozilla.firefox/data/ice/firefox".data) "c".data :=
  ⟨(delete_best_effort c6Flatpak "/h".data).1 true false,
    (delete_best_effort c6Flatpak "/h".data).2.2.2.1 rfl⟩

/-- The probe loop accumulates exactly the filtered catalog. -/
theorem probe_foldl_eq_filter (tryExists : Str → Except Unit Bool) :
    ∀ (catalog : List Browser) (acc : List Browser),
    catalog.foldl (fun bs b =>
      match tryExists b.test with
      | .ok true => bs ++ [b]
      | .ok false => bs
      | .error _ => bs) acc
    = acc ++ catalog.filter (fun b =>
        match tryExists b.test with
        | .ok true => true
        | _ => false) := by
  intro catalog
  induction catalog with
  | nil =>
    intro acc
    simp
  | cons b bs ih =>
    intro acc
    rw [List.foldl_cons, List.filter_cons]
    cases h : tryExists b.test with
    | ok tv =>
      cases tv
      · simp [ih]
      · simp [ih]
    | error e => simp [ih]

/-- C7: the probed browser list is exactly the catalog browsers whose
presence-probe path exists, in catalog order, with the NoBrowser sentinel
named Select browser at index 0; a candidate whose probe returns false or
fails with an error is skipped without affecting the others. -/
theorem get_supported_browsers_spec (home : Str) (catalog : List Browser)
    (tryExists : Str → Except Unit Bool) :
    get_supported_browsers home catalog tryExists
      = Browser.new home BrowserType.NoBrowser "Select browser".data [] []
        :: catalog.filter (fun b =>
          match tryExists b.test with
          | .ok true => true
          | _ => false)
    ∧ (Browser.new home BrowserType.NoBrowser "Select browser".data
        [] [])._type = BrowserType.NoBrowser
    ∧ (Browser.new home BrowserType.NoBrowser "Select browser".data
        [] []).name = "Select browser".data
    ∧ (Browser.new home BrowserType.NoBrowser "Select browser".data
        [] []).is_installed = false := by
  refine ⟨?_, rfl, rfl, rfl⟩
  unfold get_supported_browsers
  rw [probe_foldl_eq_filter]
  rw [List.nil_append]

/-- Every path collected by the find_icon fold was either already collected
or comes from an entry that passed every gate: name match, readable file,
parsable SVG, both dimensions at least 64. -/
theorem find_icon_mem_aux (readF : Str → Option Str)
    (svgP : Str → Option (ℚ × ℚ)) (nm : Str) :
    ∀ (entries : List WalkEntry) (acc : List Str) (p : Str),
    p ∈ entries.foldl (fun icons e =>
      if strContains e.fname nm then
        match readF e.path with
        | some buffer =>
          match svgP buffer with
          | some (w, h) =>
            if 64 ≤ w && 64 ≤ h then
              if icons.contains e.path then icons else icons ++ [e.path]
            else icons
          | none => icons
        | none => icons
      else icons) acc →
    p ∈ acc ∨ ∃ e ∈ entries, e.path = p ∧ strContains e.fname nm = true
      ∧ ∃ (buf : Str) (w h2 : ℚ), readF e.path = some buf
        ∧ svgP buf = some (w, h2) ∧ 64 ≤ w ∧ 64 ≤ h2 := by
  intro entries
  induction entries with
  | nil =>
    intro acc p hp
    exact Or.inl hp
  | cons e es ih =>
    intro acc p hp
    rw [List.foldl_cons] at hp
    rcases ih _ p hp with hacc | ⟨e2, he2, rest⟩
    · cases hcond : strContains e.fname nm with
      | false =>
        rw [hcond] at hacc
        simp only [Bool.false_eq_true, if_false] at hacc
        exact Or.inl hacc
      | true =>
        rw [hcond] at hacc
        simp only [if_true] at hacc
        cases hread : readF e.path with
        | none =>
          rw [hread] at hacc
          simp only [] at hacc
          exact Or.inl hacc
        | some buf =>
          rw [hread] at hacc
          simp only [] at hacc
          cases hsvg2 : svgP buf with
          | none =>
            rw [hsvg2] at hacc
            simp only [] at hacc
            exact Or.inl hacc
          | some wh =>
            rw [hsvg2] at hacc
            obtain ⟨w, h2⟩ := wh
            simp only [] at hacc
            cases hsize : (decide (64 ≤ w) && decide (64 ≤ h2)) with
            | false =>
              rw [hsize] at hacc
              simp only [Bool.false_eq_true, if_false] at hacc
              exact Or.inl hacc
            | true =>
              rw [hsize] at hacc
              simp only [if_true] at hacc
              rw [Bool.and_eq_true, decide_eq_true_eq,
                decide_eq_true_eq] at hsize
              cases hdup : acc.contains e.path with
              | true =>
                rw [hdup] at hacc
                simp only [if_true] at hacc
                exact Or.inl hacc
              | false =>
                rw [hdup] at hacc
                simp only [Bool.false_eq_true, if_false] at hacc
                rcases List.mem_append.mp hacc with h1 | h1
                · exact Or.inl h1
                · right
                  refine ⟨e, List.mem_cons_self e es, ?_, hcond,
                    buf, w, h2, hread, hsvg2, hsize.1, hsize.2⟩
                  rcases List.mem_singleton.mp h1 with rfl
                  rfl
    · exact Or.inr ⟨e2, List.mem_cons_of_mem e he2, rest⟩

/-- C8: raster icons are accepted exactly when both decoded dimensions are
at least 96, and local SVG search only ever returns files whose parsed
intrinsic size is at least 64 in both dimensions. -/
theorem icon_size_gates :
    (∀ (fetch : Str → List Nat) (readB : Str → Option (List Nat))
      (decode : List Nat → Option (Nat × Nat)) (path : Str) (w h : Nat),
      is_svg path = false →
      decode (image_handle_data fetch readB path) = some (w, h) →
      (image_handle fetch readB decode path).isSome
        = (decide (96 ≤ w) && decide (96 ≤ h)))
    ∧ (∀ (entries : List WalkEntry) (readF : Str → Option Str)
      (svgP : Str → Option (ℚ × ℚ)) (nm p : Str),
      p ∈ find_icon entries readF svgP nm →
      ∃ e ∈ entries, e.path = p ∧ strContains e.fname nm = true
        ∧ ∃ (buf : Str) (w h2 : ℚ), readF e.path = some buf
          ∧ svgP buf = some (w, h2) ∧ 64 ≤ w ∧ 64 ≤ h2) := by
  constructor
  · intro fetch readB decode path w h hsvg hdec
    simp only [image_handle_data] at hdec
    simp only [image_handle, hsvg, Bool.false_eq_true, if_false]
    rw [hdec]
    cases hc : (decide (96 ≤ w) && decide (96 ≤ h)) with
    | false => simp [hc]
    | true => simp [hc]
  · intro entries readF svgP nm p hp
    unfold find_icon at hp
    rcases find_icon_mem_aux readF svgP nm entries [] p hp with h1 | h2
    · cases h1
    · exact h2

/-- C8 witness: the size gates at the concrete boundary values — a 95 by 95
raster is rejected, a 96 by 96 raster accepted; a 63 by 64 SVG is excluded
from local search and a 64 by 64 SVG included, and every returned SVG
passed the 64-pixel gate. -/
theorem icon_size_gates_witness :
    (image_handle c8Fetch c8Read c8Decode95 "/i/a.png".data).isSome = false
    ∧ (image_handle c8Fetch c8Read c8Decode96 "/i/a.png".data).isSome = true
    ∧ find_icon c8Entries c8ReadFile c8Svg63 "a".data = []
    ∧ find_icon c8Entries c8ReadFile c8Svg64 "a".data = ["/i/a.svg".data]
    ∧ ∃ e ∈ c8Entries, e.path = "/i/a.svg".data
      ∧ strContains e.fname "a".data = true
      ∧ ∃ (buf : Str) (w h2 : ℚ), c8ReadFile e.path = some buf
        ∧ c8Svg64 buf = some (w, h2) ∧ 64 ≤ w ∧ 64 ≤ h2 := by
  refine ⟨?_, ?_, by decide, by decide, ?_⟩
  · have h := icon_size_gates.1 c8Fetch c8Read c8Decode95 "/i/a.png".data
      95 95 (by decide) rfl
    rw [h]
    decide
  · have h := icon_size_gates.1 c8Fetch c8Read c8Decode96 "/i/a.png".data
      96 96 (by decide) rfl
    rw [h]
    decide
  · exact icon_size_gates.2 c8Entries c8ReadFile c8Svg64 "a".data
      "/i/a.svg".data (by decide)

/-- Splitting a string that does not mention the separator yields one
piece. -/
theorem splitOnChar_no_sep (c : Char) (h : Str) (hm : c ∉ h) :
    splitOnChar c h = [h] := by
  induction h with
  | nil => rfl
  | cons x xs ih =>
    have hx : x ≠ c := fun hxc => hm (hxc ▸ List.mem_cons_self x xs)
    have hxs : c ∉ xs := fun hmem => hm (List.mem_cons_of_mem x hmem)
    simp only [splitOnChar, ih hxs]
    simp [hx]

/-- C9: on every url whose parsed host is a single dot-free label the
source indexes parts[parts.len() - 2] on a one-element vector; the
wrapping usize subtraction makes the index astronomically large, the
indexing panics, and the function returns no string (the none result
models the panic). -/
theorem get_icon_name_from_url_panics (s : Str) (u : UrlParts) (host : Str)
    (hparse : urlParse s = some u) (hhost : u.host = some host)
    (hdot : '.' ∉ host) :
    get_icon_name_from_url s = none := by
  unfold get_icon_name_from_url
  rw [hparse]
  simp only []
  rw [hhost]
  simp only []
  rw [splitOnChar_no_sep '.' host hdot]
  apply List.getElem?_eq_none
  show 1 ≤ (1 + (2 ^ 64 - 2)) % 2 ^ 64
  norm_num

/-- C9 witness: the panic at the concrete url https://localhost. -/
theorem get_icon_name_from_url_panics_witness :
    get_icon_name_from_url "https://localhost".data = none :=
  get_icon_name_from_url_panics "https://localhost".data
    ⟨"https".data, some "localhost".data⟩ "localhost".data (by decide) rfl
    (by decide)

/-- C10: for every browser kind outside the three flatpak Firefox forks —
native Firefox, Chromium, Falkon and the NoBrowser sentinel included —
delete computes the profile path as home/codename, directly under the home
directory, and (when the entry-file step does not fail) attempts to remove
that directory tree recursively. -/
theorem delete_profile_path_default (l : WebAppLauncher) (home : Str)
    (h1 : l.web_browser._type ≠ BrowserType.FirefoxFlatpak)
    (h2 : l.web_browser._type ≠ BrowserType.Librewolf)
    (h3 : l.web_browser._type ≠ BrowserType.WaterfoxFlatpak) :
    l.delete_profile_path home = pathJoin home l.codename
    ∧ ∀ rd, (l.delete home true true rd).2
      = some (pathJoin home l.codename) := by
  have hpath : l.delete_profile_path home = pathJoin home l.codename := by
    unfold WebAppLauncher.delete_profile_path
    cases htype : l.web_browser._type
    · rfl
    · rfl
    · exact absurd htype h1
    · exact absurd htype h2
    · exact absurd htype h3
    · rfl
    · rfl
  refine ⟨hpath, ?_⟩
  intro rd
  show (if true && !true then (Except.error (), none)
    else (Except.ok (), some (l.delete_profile_path home))).2
    = some (pathJoin home l.codename)
  rw [hpath]
  rfl

/-- C10 witness: the home/codename deletion target at a concrete Chromium
launcher. -/
theorem delete_profile_path_default_witness :
    c10Launcher.delete_profile_path "/h".data
      = pathJoin "/h".data "c".data :=
  (delete_profile_path_default c10Launcher "/h".data (by decide) (by decide)
    (by decide)).1
